import Mathlib

/-!
Shallow embedding of the `threadlike` topic-evolution engine.

Numbers: Python floats are modelled by real numbers (`ℝ`); the embedding keeps
the exact arithmetic expressions of the source.  Python `int` is modelled by
`ℤ`, container sizes by `ℕ`.  Python dicts are modelled by association lists in
insertion order; Python sets by lists with membership.  Fallible code (attribute
errors, division by zero) is modelled with `Except`.
-/

noncomputable section

open scoped Classical

/-- Vectors, as in `core_services/math_helpers.py`: plain lists of floats. -/
abbrev Vec := List ℝ

/-- The epsilon used by the source for numerical clamps (`1e-12`). -/
def eps : ℝ := 1 / 10 ^ 12

/-- Embedding of `math_helpers.dot`: `sum(x * y for x, y in zip(a, b))`. -/
def dot (a b : Vec) : ℝ := ((a.zip b).map (fun p => p.1 * p.2)).sum

/-- Embedding of `math_helpers.norm`: `sqrt(max(1e-12, dot(a, a)))` (named
`normv` because a plain `norm` collides with Mathlib's `Norm.norm`). -/
def normv (a : Vec) : ℝ := Real.sqrt (max eps (dot a a))

/-- Embedding of `math_helpers.cos`: `dot(a, b) / (norm(a) * norm(b))`. -/
def cosSim (a b : Vec) : ℝ := dot a b / (normv a * normv b)

/-- Embedding of `math_helpers.add`: element-wise sum over `zip`. -/
def vadd (a b : Vec) : Vec := (a.zip b).map (fun p => p.1 + p.2)

/-- Embedding of `math_helpers.scale`: `[x * s for x in a]`. -/
def vscale (a : Vec) (s : ℝ) : Vec := a.map (fun x => x * s)

/-- Embedding of `math_helpers.weighted_incremental_mean`, value level.
The source returns `(e[:], w)` when `c_prev is None or W_prev <= 0` and
otherwise divides by `W = W_prev + w` with no epsilon clamp; field division
by zero in `ℝ` yields `0`, the raising behaviour is modelled separately by
`weighted_incremental_mean_run`. -/
def weighted_incremental_mean (c_prev : Option Vec) (W_prev : ℝ) (e : Vec) (w : ℝ) :
    Vec × ℝ :=
  match c_prev with
  | none => (e, w)
  | some c =>
    if W_prev ≤ 0 then (e, w)
    else
      let W := W_prev + w
      ((c.zip e).map (fun p => (p.1 * W_prev + p.2 * w) / W), W)

/-- Embedding of `math_helpers.weighted_incremental_mean` including Python's
error behaviour: the list comprehension divides each component by
`W = W_prev + w`; Python float division raises `ZeroDivisionError` when the
divisor is `0.0`, which happens on the non-bootstrap path whenever
`W_prev + w = 0` and `zip(c_prev, e)` is non-empty. -/
def weighted_incremental_mean_run (c_prev : Option Vec) (W_prev : ℝ) (e : Vec) (w : ℝ) :
    Except String (Vec × ℝ) :=
  match c_prev with
  | none => .ok (e, w)
  | some c =>
    if W_prev ≤ 0 then .ok (e, w)
    else
      let W := W_prev + w
      if W = 0 ∧ (c.zip e) ≠ [] then .error "ZeroDivisionError"
      else .ok ((c.zip e).map (fun p => (p.1 * W_prev + p.2 * w) / W), W)

/-- Modelled from the spec: `weighted_incremental_mean` as §4.1 words it, with
the epsilon clamp on the divisor: `c = (c_prev·W_prev + e·w) / max(W, ε)`.
Stated only to compare against the source embedding. -/
def weighted_incremental_mean_spec (c_prev : Option Vec) (W_prev : ℝ) (e : Vec) (w : ℝ) :
    Vec × ℝ :=
  match c_prev with
  | none => (e, w)
  | some c =>
    if W_prev ≤ 0 then (e, w)
    else
      let W := W_prev + w
      ((c.zip e).map (fun p => (p.1 * W_prev + p.2 * w) / max W eps), W)

/-- Embedding of `math_helpers.ema_update_vec`: copy of `v_now` when the EMA is
absent, else element-wise `(1 - β)·e + β·n`. -/
def ema_update_vec (v_ema : Option Vec) (v_now : Vec) (beta : ℝ) : Vec :=
  match v_ema with
  | none => v_now
  | some v => (v.zip v_now).map (fun p => (1 - beta) * p.1 + beta * p.2)

/-- Embedding of `models/negative_rules.py` (`NegativeRules` dataclass). -/
structure NegativeRules where
  block_terms : List String := []
  block_domains : List String := []
  block_types : List String := []

/-- Embedding of `models/topic_policy.py` (`TopicPolicy` dataclass).
Thresholds and smoothing factors; `m_min` and `persistence_min` are Python
ints, the rest floats. -/
structure TopicPolicy where
  w_sim : ℝ := 6 / 10
  w_auth : ℝ := 4 / 10
  mmr_lambda : ℝ := 3 / 10
  m_min : ℤ := 6
  tau_cohesion : ℝ := 55 / 100
  tau_separation : ℝ := 70 / 100
  persistence_min : ℤ := 2
  ema_alpha_topic : ℝ := 10 / 100
  ema_beta_cluster : ℝ := 25 / 100

/-- Embedding of `models/doc.py` (`Doc` dataclass). -/
structure Doc where
  id : String
  ts : ℝ
  url : String
  domain : String
  title : String
  text : String
  dtype : String
  authority : ℝ
  vec : Vec
  hash : String
  arm_id : String
  sample_weight : ℝ := 1

/-- Embedding of `models/cluster_snapshot.py` (`ClusterSnapshot` dataclass);
`size` is an `int` in the source. -/
structure ClusterSnapshot where
  cluster_id : String
  centroid_now : Vec
  size : ℤ
  cohesion_now : ℝ
  separation_now : ℝ
  doc_ids : List String

/-- Embedding of `models/cluster_state.py` (`ClusterState` dataclass); the
dataclass defaults are `centroid_ema = None`, zero scalar EMAs, zero
persistence, and `last_seen_ts = time.time()` at construction (passed in
explicitly here). -/
structure ClusterState where
  cluster_id : String
  centroid_ema : Option Vec := none
  cohesion_ema : ℝ := 0
  separation_ema : ℝ := 0
  persistence : ℤ := 0
  last_seen_ts : ℝ

/-- The non-recursive fields of `models/topic.py` (`Topic` dataclass).
The dataclass declares no `weight_sum` field; `core_services/topic_updater.py`
nevertheless reads and writes the attribute `topic.weight_sum`.  Python
objects admit dynamically added attributes, so the slot is modelled as an
`Option`: it is `none` on every `Topic` the repository constructs (reading it
then raises `AttributeError`) and becomes `some W` only after an assignment. -/
structure TopicBase where
  id : String
  name : String
  seeds : List String
  negative : NegativeRules
  policy : TopicPolicy
  centroid_long : Option Vec := none
  doc_count : ℤ := 0
  centroid_short_ema : Option Vec := none
  emerged_from : Option String := none
  last_updated_ts : ℝ := 0
  weight_sum : Option ℝ := none

/-- Embedding of `models/topic.py`: a `Topic` is its scalar fields together
with `children`, a list of child `Topic` objects (the source field is
`children: List[Topic] = field(default_factory=list)`). -/
inductive Topic where
  | mk (base : TopicBase) (children : List Topic)

/-- Projection to the non-recursive fields of a `Topic`. -/
def Topic.base : Topic → TopicBase
  | .mk b _ => b

/-- Projection to the `children` field of a `Topic`. -/
def Topic.children : Topic → List Topic
  | .mk _ c => c

/-- Shorthand for `topic.id`. -/
def Topic.id (t : Topic) : String := t.base.id

/-- Shorthand for `topic.name`. -/
def Topic.name (t : Topic) : String := t.base.name

/-- Shorthand for `topic.doc_count`. -/
def Topic.doc_count (t : Topic) : ℤ := t.base.doc_count

/-- Shorthand for `topic.centroid_long`. -/
def Topic.centroid_long (t : Topic) : Option Vec := t.base.centroid_long

/-- Shorthand for `topic.emerged_from`. -/
def Topic.emerged_from (t : Topic) : Option String := t.base.emerged_from

/-- Shorthand for `topic.policy`. -/
def Topic.policy (t : Topic) : TopicPolicy := t.base.policy

/-- Shorthand for `topic.last_updated_ts`. -/
def Topic.last_updated_ts (t : Topic) : ℝ := t.base.last_updated_ts

/-- Replace the scalar fields of a topic, keeping its children. -/
def Topic.withBase : Topic → TopicBase → Topic
  | .mk _ c, b => .mk b c

/-- Embedding of `topic.children.append(child)`. -/
def Topic.appendChild : Topic → Topic → Topic
  | .mk b c, child => .mk b (c ++ [child])

/-- Python dict lookup `d.get(k)` on an insertion-ordered association list. -/
def dictGet {α β : Type} [DecidableEq α] : List (α × β) → α → Option β
  | [], _ => none
  | e :: rest, k => if e.1 = k then some e.2 else dictGet rest k

/-- Python dict assignment `d[k] = v`: replaces in place if the key exists
(keeping its insertion position), else appends at the end. -/
def dictSet {α β : Type} [DecidableEq α] : List (α × β) → α → β → List (α × β)
  | [], k, v => [(k, v)]
  | e :: rest, k, v => if e.1 = k then (k, v) :: rest else e :: dictSet rest k v

/-- Python `d.setdefault(k, v)`: inserts `(k, v)` only when `k` is absent. -/
def dictSetdefault {α β : Type} [DecidableEq α] (d : List (α × β)) (k : α) (v : β) :
    List (α × β) :=
  match dictGet d k with
  | some _ => d
  | none => d ++ [(k, v)]

/-- Python `d.pop(k, None)`: removes the entry with key `k` if present. -/
def dictPop {α β : Type} [DecidableEq α] (d : List (α × β)) (k : α) : List (α × β) :=
  d.filter (fun e => e.1 ≠ k)

/-- Python `set.update(xs)` on a set modelled as a duplicate-free list in
insertion order. -/
def setUpdate (old : List String) (xs : List String) : List String :=
  xs.foldl (fun acc h => if h ∈ acc then acc else acc ++ [h]) old

/-- Stable insertion of `x` into a list already sorted descending by `key`:
`x` is placed before the first element whose key is not larger, which matches
the order produced by Python's stable `sorted(..., reverse=True)`. -/
def insertDescBy {α : Type} (key : α → ℝ) (x : α) : List α → List α
  | [] => [x]
  | y :: ys => if key x ≥ key y then x :: y :: ys else y :: insertDescBy key x ys

/-- Stable descending sort by a real key, modelling Python's stable
`sorted(arr, key=..., reverse=True)`. -/
def sortDescBy {α : Type} (key : α → ℝ) : List α → List α
  | [] => []
  | x :: xs => insertDescBy key x (sortDescBy key xs)

/-- Embedding of `adapters/testing/in_memory_storage.py` (`InMemoryStorage`):
four insertion-ordered dicts. -/
structure Storage where
  topics : List (String × Topic) := []
  docs_by_topic : List (String × List Doc) := []
  seen_hashes : List (String × List String) := []
  cluster_state : List ((String × String) × ClusterState) := []

/-- Embedding of `InMemoryStorage.load_topic` (`self.topics[topic_id]`;
a missing key raises `KeyError`, modelled by `none`). -/
def Storage.load_topic (S : Storage) (topic_id : String) : Option Topic :=
  dictGet S.topics topic_id

/-- Embedding of `InMemoryStorage.save_topic`: upsert plus `setdefault` of the
document log and the seen-hash set. -/
def Storage.save_topic (S : Storage) (t : Topic) : Storage :=
  { S with topics := dictSet S.topics t.id t,
           docs_by_topic := dictSetdefault S.docs_by_topic t.id [],
           seen_hashes := dictSetdefault S.seen_hashes t.id [] }

/-- Embedding of `InMemoryStorage.save_docs`:
`self.docs_by_topic.setdefault(topic_id, []).extend(docs)`. -/
def Storage.save_docs (S : Storage) (topic_id : String) (docs : List Doc) : Storage :=
  { S with docs_by_topic :=
      dictSet S.docs_by_topic topic_id ((dictGet S.docs_by_topic topic_id).getD [] ++ docs) }

/-- Embedding of `InMemoryStorage.recent_docs`: sort by `ts` descending
(stable) and truncate to `limit`; the source ignores `window_days`. -/
def Storage.recent_docs (S : Storage) (topic_id : String) (limit : ℕ) : List Doc :=
  (sortDescBy (fun d => d.ts) ((dictGet S.docs_by_topic topic_id).getD [])).take limit

/-- Embedding of `InMemoryStorage.mark_seen_hashes`: additive set union. -/
def Storage.mark_seen_hashes (S : Storage) (topic_id : String) (hashes : List String) :
    Storage :=
  { S with seen_hashes :=
      dictSet S.seen_hashes topic_id (setUpdate ((dictGet S.seen_hashes topic_id).getD []) hashes) }

/-- Embedding of `InMemoryStorage.seen`: the current seen-hash set for the
topic (the source's `setdefault(topic_id, set())` also inserts an empty set
when absent, which is observationally the same as reading the empty set). -/
def Storage.seenOf (S : Storage) (topic_id : String) : List String :=
  (dictGet S.seen_hashes topic_id).getD []

/-- Embedding of `InMemoryStorage.save_cluster_state`: upsert keyed by
`(topic_id, state.cluster_id)`. -/
def Storage.save_cluster_state (S : Storage) (topic_id : String) (st : ClusterState) :
    Storage :=
  { S with cluster_state := dictSet S.cluster_state (topic_id, st.cluster_id) st }

/-- Embedding of `InMemoryStorage.delete_cluster_state`
(`self.cluster_state.pop((topic_id, cluster_id), None)`). -/
def Storage.delete_cluster_state (S : Storage) (topic_id cluster_id : String) : Storage :=
  { S with cluster_state := dictPop S.cluster_state (topic_id, cluster_id) }

/-- Embedding of `TopicUpdater._time_weight`:
`exp(-λ · max(0, (now - ts)/86400))` when `λ > 0`, else `1`. -/
def time_weight (recency_lambda now_ts doc_ts : ℝ) : ℝ :=
  if recency_lambda > 0 then Real.exp (-(recency_lambda * max 0 ((now_ts - doc_ts) / 86400)))
  else 1

/-- One iteration of the loop in `TopicUpdater.apply`: the right-hand side
`weighted_incremental_mean(topic.centroid_long, topic.weight_sum, d.vec, w)`
reads `topic.weight_sum` first, which raises `AttributeError` whenever the
attribute was never assigned (the `Topic` dataclass does not declare it). -/
def TopicUpdater.applyDoc (recency_lambda now : ℝ) (b : TopicBase) (d : Doc) :
    Except String TopicBase :=
  match b.weight_sum with
  | none => .error "AttributeError: 'Topic' object has no attribute 'weight_sum'"
  | some W_prev =>
    let w := d.authority * time_weight recency_lambda now d.ts
    match weighted_incremental_mean_run b.centroid_long W_prev d.vec w with
    | .error e => .error e
    | .ok r => .ok { b with centroid_long := some r.1, weight_sum := some r.2 }

/-- Embedding of `TopicUpdater.apply`: fold the documents in insertion order,
then set `last_updated_ts` to `now_ts`. -/
def TopicUpdater.apply (recency_lambda : ℝ) (t : Topic) (docs : List Doc) (now : ℝ) :
    Except String Topic := do
  let b ← docs.foldlM (TopicUpdater.applyDoc recency_lambda now) t.base
  return t.withBase { b with last_updated_ts := now }

/-- Embedding of `ClusterSmoother.update`: the three EMA updates in source
order, then the `meets` test on the raw size and the freshly smoothed scalars,
then the persistence update, `last_seen_ts`, and persistence of the state. -/
def ClusterSmoother.update (beta : ℝ) (S : Storage) (t : Topic) (snap : ClusterSnapshot)
    (st : ClusterState) (now : ℝ) : ClusterState × Storage :=
  let st1 := { st with
    centroid_ema := some (ema_update_vec st.centroid_ema snap.centroid_now beta),
    cohesion_ema := (1 - beta) * st.cohesion_ema + beta * snap.cohesion_now,
    separation_ema := (1 - beta) * st.separation_ema + beta * snap.separation_now }
  let meets := snap.size ≥ t.policy.m_min ∧ st1.cohesion_ema ≥ t.policy.tau_cohesion ∧
    (1 - st1.separation_ema) ≤ t.policy.tau_separation
  let st2 := { st1 with persistence := if meets then st.persistence + 1 else 0,
                        last_seen_ts := now }
  (st2, S.save_cluster_state t.id st2)

/-- Embedding of `ClusterMatcher.list_states`: the states stored under the
topic id, in dict insertion order. -/
def ClusterMatcher.list_states (S : Storage) (topic_id : String) : List ClusterState :=
  (S.cluster_state.filter (fun e => e.1.1 = topic_id)).map (fun e => e.2)

/-- Embedding of the greedy best-match loop of `ClusterMatcher.match_or_create`
with accumulators `best = None`, `best_sim = -1.0`; states with a null
`centroid_ema` are skipped and a state is taken only on strict improvement. -/
def bestLoop (c : Vec) : List ClusterState → Option ClusterState → ℝ →
    Option ClusterState × ℝ
  | [], best, bestSim => (best, bestSim)
  | st :: rest, best, bestSim =>
    match st.centroid_ema with
    | none => bestLoop c rest best bestSim
    | some ce =>
      if cosSim c ce > bestSim then bestLoop c rest (some st) (cosSim c ce)
      else bestLoop c rest best bestSim

/-- Embedding of `ClusterMatcher.match_or_create`; `uuidHex` models
`uuid.uuid4().hex` (32 hex characters), of which the source keeps the first 8
for the fresh key `cand_<hex8>`. -/
def ClusterMatcher.match_or_create (tau_match : ℝ) (S : Storage) (t : Topic)
    (snap : ClusterSnapshot) (uuidHex : String) (now : ℝ) : ClusterState × Storage :=
  let states := ClusterMatcher.list_states S t.id
  let bb := bestLoop snap.centroid_now states none (-1)
  let stNew : ClusterState := { cluster_id := "cand_" ++ uuidHex.take 8, last_seen_ts := now }
  match bb.1 with
  | some best => if bb.2 ≥ tau_match then (best, S) else (stNew, S.save_cluster_state t.id stNew)
  | none => (stNew, S.save_cluster_state t.id stNew)

/-- Embedding of `ClusterMatcher.expire_stale`: snapshot the topic's states,
then delete every state whose age `now - last_seen_ts` is at least
`max_age_days · 86400`. -/
def ClusterMatcher.expire_stale (S : Storage) (topic_id : String) (max_age_days : ℤ)
    (now : ℝ) : Storage :=
  (ClusterMatcher.list_states S topic_id).foldl
    (fun acc st =>
      if now - st.last_seen_ts ≥ (max_age_days : ℝ) * 86400
      then acc.delete_cluster_state topic_id st.cluster_id
      else acc) S

/-- Embedding of `EmergenceDetector.ready` (the conjunction of the four
criteria computed by `explain`): mass on the raw snapshot size, cohesion and
separation on the smoothed state, and the persistence threshold. -/
def EmergenceDetector.ready (t : Topic) (snap : ClusterSnapshot) (st : ClusterState) : Prop :=
  snap.size ≥ t.policy.m_min ∧ st.cohesion_ema ≥ t.policy.tau_cohesion ∧
  (1 - st.separation_ema) ≤ t.policy.tau_separation ∧ st.persistence ≥ t.policy.persistence_min

/-- Embedding of `EmergenceDetector.promote`, value level: the child topic's
field contents.  `freshId` models `str(uuid.uuid4())`; `namer` is the injected
`EmergenceNamer.name_and_seeds`.  The source copies the snapshot centroid
(`snap.centroid_now[:]`), which is value-equal to `snap.centroid_now`. -/
def EmergenceDetector.promote (parent : Topic) (snap : ClusterSnapshot)
    (namer : List Doc → String × List String) (cluster_docs : List Doc)
    (freshId : String) (now : ℝ) : Topic :=
  let ns := namer cluster_docs
  Topic.mk
    { id := freshId, name := ns.1, seeds := ns.2,
      negative := parent.base.negative, policy := parent.base.policy,
      centroid_long := some snap.centroid_now, doc_count := snap.size,
      centroid_short_ema := none, emerged_from := some parent.id,
      last_updated_ts := now } []

/-- Object-identity view of a `Topic`'s mutable constituents, used to model
Python reference semantics: each mutable object (the `NegativeRules` and
`TopicPolicy` dataclass instances and the `centroid_long` and `children`
lists) is named by an allocation id. -/
structure TopicRefs where
  negativeRef : ℕ
  policyRef : ℕ
  centroidRef : Option ℕ
  childrenRef : ℕ

/-- Object-identity level of `EmergenceDetector.promote`: the constructor call
passes `negative=parent.negative` and `policy=parent.policy`, i.e. the very
objects held by the parent, so the child's references coincide with the
parent's; `centroid_long=snap.centroid_now[:]` allocates a fresh list, and the
dataclass `children` default factory allocates a fresh empty list. -/
def promoteRefs (parent : TopicRefs) (freshCentroidRef freshChildrenRef : ℕ) : TopicRefs :=
  { negativeRef := parent.negativeRef, policyRef := parent.policyRef,
    centroidRef := some freshCentroidRef, childrenRef := freshChildrenRef }

/-- Two topics share mutable state when any of their mutable constituents is
the same object. -/
def sharesMutableState (a b : TopicRefs) : Prop :=
  a.negativeRef = b.negativeRef ∨ a.policyRef = b.policyRef ∨
  (a.centroidRef ≠ none ∧ a.centroidRef = b.centroidRef) ∨ a.childrenRef = b.childrenRef

/-- Embedding of `adapters/testing/filtering/pass_filter.py`: passes all
documents through. -/
def PassFilter.apply (negative : NegativeRules) (docs : List Doc) : List Doc := docs

/-- Embedding of the loop body of `SeenDeduper.drop` with the running
`seen_in_batch` set. -/
def SeenDeduper.go (seen : List String) : List Doc → List String → List Doc
  | [], _ => []
  | d :: ds, batch =>
    if d.hash ∈ seen then SeenDeduper.go seen ds batch
    else if d.hash ∈ batch then SeenDeduper.go seen ds batch
    else d :: SeenDeduper.go seen ds (batch ++ [d.hash])

/-- Embedding of `adapters/testing/filtering/seen_deduper.py`: drops documents
whose hash was seen in past ticks or earlier in the same batch. -/
def SeenDeduper.drop (seen : List String) (docs : List Doc) : List Doc :=
  SeenDeduper.go seen docs []

/-- Embedding of `adapters/testing/filtering/simple_ranker.py`: authority-only
when the topic has no long-term centroid, else `0.6·cos + 0.4·authority`,
descending, truncated to `K`. -/
def SimpleRanker.select (t : Topic) (docs : List Doc) (K : ℕ) : List Doc :=
  match t.centroid_long with
  | none => (sortDescBy (fun d => d.authority) docs).take K
  | some c => (sortDescBy (fun d => 6 / 10 * cosSim d.vec c + 4 / 10 * d.authority) docs).take K

/-- Embedding of `adapters/testing/search/toy_query_planner.py`:
`topic.seeds[:k_queries]`. -/
def ToyQueryPlanner.plan (t : Topic) (k_queries : ℕ) : List String :=
  t.base.seeds.take k_queries

/-- A search hit; the orchestrator only reads `url`. -/
structure Hit where
  url : String

/-- A fetched page, as the dict returned by a `Fetcher`; the orchestrator
reads the optional fields with `get` defaults. -/
structure Page where
  url : String
  text : String
  ts : Option ℝ := none
  domain : Option String := none
  title : Option String := none
  dtype : Option String := none
  authority : Option ℝ := none
  hash : Option String := none
  arm_id : Option String := none
  sample_weight : Option ℝ := none

/-- Embedding of the document-assembly loop body of `Orchestrator.tick`
(lines 178-195): the hash is `p.get("hash") or str(hash(p["text"]))` — the
supplied hash when present and truthy (non-empty), else the string of Python's
builtin `hash` of the raw page text, modelled by the `pyHash` parameter. -/
def assembleDoc (pyHash : String → ℤ) (docId : String) (now : ℝ) (p : Page) (v : Vec) : Doc :=
  { id := docId,
    ts := p.ts.getD now,
    url := p.url,
    domain := p.domain.getD "",
    title := p.title.getD "",
    text := p.text,
    dtype := p.dtype.getD "unknown",
    authority := p.authority.getD (5 / 10),
    vec := v,
    hash := match p.hash with
      | some s => if s = "" then toString (pyHash p.text) else s
      | none => toString (pyHash p.text),
    arm_id := p.arm_id.getD "",
    sample_weight := p.sample_weight.getD 1 }

/-- Splitting a character list into maximal whitespace-free words. -/
def wordsAux : List Char → List Char → List (List Char)
  | [], cur => if cur = [] then [] else [cur]
  | c :: rest, cur =>
    if c.isWhitespace then
      if cur = [] then wordsAux rest [] else cur :: wordsAux rest []
    else wordsAux rest (cur ++ [c])

/-- Joining words with single spaces. -/
def joinWords : List (List Char) → List Char
  | [] => []
  | [w] => w
  | w :: ws => w ++ ' ' :: joinWords ws

/-- Modelled from the spec: text normalization named in §4.7 step 5 and §3
("lowercase, whitespace-collapsed"), which has no counterpart in the source;
stated only to compare the source's hash derivation against the spec's. -/
def normalizeText (s : String) : String :=
  String.mk (joinWords (wordsAux (s.data.map Char.toLower) []))

/-- Concrete model of Python's builtin `hash` on strings: CPython hashes the
code-point sequence with a per-process-seeded SipHash, so it is deterministic
within one run and depends on the exact code points (case and whitespace
included).  Modelled by a concrete code-point hash with those properties. -/
def pyHashModel (s : String) : ℤ :=
  s.data.foldl (fun a c => a * 31 + (c.toNat : ℤ) + 1) 7

/-- The injected ports of `Orchestrator` (planner, searcher, fetcher,
embedder, filter, deduper, ranker, clusterer, namer), plus the two sources of
ambient nondeterminism the source draws on: Python's builtin string hash
(`pyHash`) and the uuid generator (`fresh`, one fresh string per draw). -/
structure Ports where
  plan : Topic → ℕ → List String
  search : String → ℕ → List Hit
  fetch : String → Page
  embed : List String → List Vec
  filterApply : NegativeRules → List Doc → List Doc
  dedupDrop : List String → List Doc → List Doc
  rankSelect : Topic → List Doc → ℕ → List Doc
  cluster : Topic → List Doc → List ClusterSnapshot
  namer : List Doc → String × List String
  pyHash : String → ℤ
  fresh : ℕ → String

/-- The constructor parameters of `Orchestrator` and its services wired in
`main.py` / `test_bench_loop.py`: the matcher threshold, the smoother beta,
the updater's recency lambda, and the policy knobs. -/
structure OrchConfig where
  tau_match : ℝ := 4 / 10
  beta : ℝ
  recency_lambda : ℝ := 0
  K_queries : ℕ := 6
  K_keep : ℕ := 20
  max_age_days : ℤ := 90

/-- The summary dict returned by `Orchestrator.tick`. -/
structure Summary where
  ingested : ℕ
  clusters_observed : ℕ
  promotions : List (String × String)
  topic_id : String
  updated_at : ℝ

/-- One iteration of the promotion loop of `Orchestrator.tick` (lines
236-263): match-or-create, smooth, and on `ready` promote, persist the child,
append it to `topic.children`, record it, and delete the ephemeral state.
The accumulator carries the storage, the (mutated) topic, the promotions so
far, and the uuid draw counter (two draws reserved per snapshot). -/
def promoteStep (P : Ports) (cfg : OrchConfig) (window : List Doc) (now : ℝ) :
    Storage × Topic × List Topic × ℕ → ClusterSnapshot → Storage × Topic × List Topic × ℕ
  | (S, topic, proms, k), snap =>
    let mc := ClusterMatcher.match_or_create cfg.tau_match S topic snap (P.fresh k) now
    let su := ClusterSmoother.update cfg.beta mc.2 topic snap mc.1 now
    if EmergenceDetector.ready topic snap su.1 then
      let cluster_docs := window.filter (fun d => d.id ∈ snap.doc_ids)
      let child := EmergenceDetector.promote topic snap P.namer cluster_docs
        (P.fresh (k + 1)) now
      (((su.2.save_topic child).delete_cluster_state (topic.appendChild child).id
          su.1.cluster_id),
       topic.appendChild child, proms ++ [child], k + 2)
    else
      (su.2, topic, proms, k + 2)

/-- Steps 1-2 of `Orchestrator.tick`: plan queries, gather hits, fetch pages,
embed, and assemble the documents (one uuid draw per document). -/
def tickDocs (P : Ports) (cfg : OrchConfig) (t0 : Topic) (now : ℝ) : List Doc :=
  let queries := P.plan t0 cfg.K_queries
  let hits := queries.foldl (fun acc q => acc ++ P.search q 10) []
  let pages := hits.map (fun h => P.fetch h.url)
  let vecs := P.embed (pages.map (fun p => p.text))
  (pages.zip vecs).enum.map (fun e => assembleDoc P.pyHash (P.fresh e.1) now e.2.1 e.2.2)

/-- Step 3 of `Orchestrator.tick`: negative filter, dedup against the seen
set, rank and trim to `K_keep`. -/
def tickTopK (P : Ports) (cfg : OrchConfig) (S : Storage) (t0 : Topic) (now : ℝ) :
    List Doc :=
  P.rankSelect t0 (P.dedupDrop (S.seenOf t0.id) (P.filterApply t0.base.negative
    (tickDocs P cfg t0 now))) cfg.K_keep

/-- Steps 4-7 of `Orchestrator.tick` after the (fallible) topic update:
persist docs, seen hashes and the topic, re-cluster the recent window, run
the promotion loop, expire stale candidate states, write the mutated topic
back (`InMemoryStorage` aliases the stored object, so the in-place
`topic.children.append` mutations are visible in storage), and build the
summary. -/
def tickTail (P : Ports) (cfg : OrchConfig) (S : Storage) (topic : Topic)
    (topK : List Doc) (n0 : ℕ) (now : ℝ) : Storage × Summary :=
  let S1 := ((S.save_docs topic.id topK).mark_seen_hashes topic.id
    (topK.map (fun d => d.hash))).save_topic topic
  let window := S1.recent_docs topic.id 500
  let snaps := P.cluster topic window
  let r := snaps.foldl (promoteStep P cfg window now) (S1, topic, [], n0)
  let S2 := (ClusterMatcher.expire_stale r.1 r.2.1.id cfg.max_age_days now).save_topic r.2.1
  (S2, { ingested := topK.length, clusters_observed := snaps.length,
         promotions := r.2.2.1.map (fun c => (c.id, c.name)),
         topic_id := r.2.1.id, updated_at := now })

/-- Embedding of `Orchestrator.tick`, assembled from its stages.  Failures
are surfaced as `Except`: a missing topic id raises `KeyError` in
`load_topic`, and `TopicUpdater.apply` raises `AttributeError` on its first
document (see `TopicUpdater.applyDoc`). -/
def tick (P : Ports) (cfg : OrchConfig) (S : Storage) (topic_id : String) (now : ℝ) :
    Except String (Storage × Summary) := do
  let topic ← match S.load_topic topic_id with
    | some t => pure t
    | none => Except.error "KeyError"
  let topK := tickTopK P cfg S topic now
  let topic2 ← TopicUpdater.apply cfg.recency_lambda topic topK now
  return tickTail P cfg S topic2 topK (tickDocs P cfg topic now).length now

/-- A permissive concrete policy (every threshold immediately satisfiable):
`m_min = 1`, `tau_cohesion = 1/4`, `tau_separation = 1`, `persistence_min = 1`,
cluster beta `1/2`. -/
def cexPolicy : TopicPolicy :=
  { m_min := 1, tau_cohesion := 1 / 4, tau_separation := 1, persistence_min := 1,
    ema_beta_cluster := 1 / 2 }

/-- A concrete document sitting in the recent window. -/
def cexDoc0 : Doc :=
  { id := "d", ts := 0, url := "u", domain := "", title := "", text := "x", dtype := "blog",
    authority := 1 / 2, vec := [1], hash := "h", arm_id := "" }

/-- A concrete root topic as the repository constructs one (no `weight_sum`
attribute, no centroid yet, no children). -/
def cexTopic : Topic :=
  .mk { id := "T", name := "N", seeds := [], negative := {}, policy := cexPolicy,
        last_updated_ts := 0 } []

/-- The same topic with the dynamic attribute `weight_sum` assigned, as it
would be after an explicit `topic.weight_sum = 0.0`. -/
def cexTopicW : Topic :=
  .mk { id := "T", name := "N", seeds := [], negative := {}, policy := cexPolicy,
        last_updated_ts := 0, weight_sum := some 0 } []

/-- Storage holding the topic and one window document (seeded through the
storage port), no cluster states. -/
def cexStorage : Storage :=
  { topics := [("T", cexTopic)], docs_by_topic := [("T", [cexDoc0])],
    seen_hashes := [("T", [])], cluster_state := [] }

/-- The snapshot the concrete clusterer emits for the one-document window:
its `doc_ids` are window ids, cohesion is 1, and separation is 0 because the
parent topic has no long-term centroid (the clusterer contract's fallback). -/
def cexSnap : ClusterSnapshot :=
  { cluster_id := "C0", centroid_now := [1], size := 1, cohesion_now := 1,
    separation_now := 0, doc_ids := ["d"] }

/-- A concrete wiring of the orchestrator's ports: the repository's testing
filter/deduper/ranker/planner adapters, an empty search feed, and a
contract-conforming clusterer that keeps observing the same cluster in the
retained window.  `tag` distinguishes the uuid draws of different ticks. -/
def cexPorts (tag : String) : Ports :=
  { plan := ToyQueryPlanner.plan, search := fun _ _ => [],
    fetch := fun u => { url := u, text := "" }, embed := fun _ => [],
    filterApply := PassFilter.apply, dedupDrop := SeenDeduper.drop,
    rankSelect := SimpleRanker.select, cluster := fun _ _ => [cexSnap],
    namer := fun _ => ("Topic: x", ["x"]), pyHash := pyHashModel,
    fresh := fun n => tag ++ String.mk (List.replicate n 'u') }

/-- The orchestrator configuration used by the concrete runs: all defaults,
smoother beta `1/2`. -/
def cexCfg : OrchConfig := { beta := 1 / 2 }

/-- The scalar fields of a child topic promoted from `cexSnap`. -/
def cexChildBase (childId : String) (now : ℝ) : TopicBase :=
  { id := childId, name := "Topic: x", seeds := ["x"], negative := {}, policy := cexPolicy,
    centroid_long := some [1], doc_count := 1, centroid_short_ema := none,
    emerged_from := some "T", last_updated_ts := now }

/-- The child promoted by the first concrete tick. -/
def cexChildF : Topic := .mk (cexChildBase "fu" 100) []

/-- The child promoted by the second concrete tick. -/
def cexChildG : Topic := .mk (cexChildBase "gu" 200) []

/-- The root topic after the first concrete tick. -/
def cexTopicA1 : Topic :=
  .mk { id := "T", name := "N", seeds := [], negative := {}, policy := cexPolicy,
        last_updated_ts := 100 } [cexChildF]

/-- The root topic after the second concrete tick. -/
def cexTopicA2 : Topic :=
  .mk { id := "T", name := "N", seeds := [], negative := {}, policy := cexPolicy,
        last_updated_ts := 200 } [cexChildF, cexChildG]

/-- Storage after the first concrete tick. -/
def cexS1 : Storage :=
  { topics := [("T", cexTopicA1), ("fu", cexChildF)],
    docs_by_topic := [("T", [cexDoc0]), ("fu", [])],
    seen_hashes := [("T", []), ("fu", [])], cluster_state := [] }

/-- Summary of the first concrete tick. -/
def cexSum1 : Summary :=
  { ingested := 0, clusters_observed := 1, promotions := [("fu", "Topic: x")],
    topic_id := "T", updated_at := 100 }

/-- Storage after the second concrete tick. -/
def cexS2 : Storage :=
  { topics := [("T", cexTopicA2), ("fu", cexChildF), ("gu", cexChildG)],
    docs_by_topic := [("T", [cexDoc0]), ("fu", []), ("gu", [])],
    seen_hashes := [("T", []), ("fu", []), ("gu", [])], cluster_state := [] }

/-- Summary of the second concrete tick. -/
def cexSum2 : Summary :=
  { ingested := 0, clusters_observed := 1, promotions := [("gu", "Topic: x")],
    topic_id := "T", updated_at := 200 }

/-- Documents used to exercise `TopicUpdater.apply` concretely. -/
def c1Doc1 : Doc :=
  { id := "e1", ts := 0, url := "", domain := "", title := "", text := "", dtype := "",
    authority := 1, vec := [0], hash := "h1", arm_id := "" }

/-- Second concrete document, with a different authority weight. -/
def c1Doc2 : Doc :=
  { id := "e2", ts := 0, url := "", domain := "", title := "", text := "", dtype := "",
    authority := 1 / 3, vec := [1], hash := "h2", arm_id := "" }

/-- A persisted candidate state whose smoothed centroid is exactly opposite to
the snapshot centroid (cosine similarity exactly `-1`). -/
def c6State : ClusterState :=
  { cluster_id := "s0", centroid_ema := some [-1], last_seen_ts := 0 }

/-- Storage holding only `c6State` under topic `T`. -/
def c6Storage : Storage := { cluster_state := [(("T", "s0"), c6State)] }

/-- A snapshot whose centroid is `[1]`. -/
def c6Snap : ClusterSnapshot :=
  { cluster_id := "C1", centroid_now := [1], size := 1, cohesion_now := 1,
    separation_now := 0, doc_ids := [] }

/-- A persisted candidate state aligned with the snapshot centroid (cosine
similarity exactly `1`). -/
def c6wState : ClusterState :=
  { cluster_id := "w0", centroid_ema := some [1], last_seen_ts := 0 }

/-- Storage holding only `c6wState` under topic `T`. -/
def c6wStorage : Storage := { cluster_state := [(("T", "w0"), c6wState)] }

/-- Concrete allocation ids for a parent topic's mutable constituents. -/
def c7Refs : TopicRefs :=
  { negativeRef := 0, policyRef := 1, centroidRef := some 2, childrenRef := 3 }

/-- A candidate state last seen at time 0 (stale at `now = 86405` with
`max_age_days = 1`). -/
def c8Stale : ClusterState := { cluster_id := "old", last_seen_ts := 0 }

/-- A candidate state last seen at time 86400 (fresh at `now = 86405`). -/
def c8Fresh : ClusterState := { cluster_id := "new", last_seen_ts := 86400 }

/-- Storage holding one stale and one fresh candidate state for topic `T`. -/
def c8Storage : Storage :=
  { cluster_state := [(("T", "old"), c8Stale), (("T", "new"), c8Fresh)] }

/-- A freshly created candidate state (all dataclass defaults). -/
def c10State : ClusterState := { cluster_id := "c", last_seen_ts := 0 }

/-- Two pages whose texts normalize identically (lowercase, collapse
whitespace) but differ as raw strings; neither supplies a hash. -/
def c3Page1 : Page := { url := "u1", text := "A B" }

/-- Second page for the hash comparison. -/
def c3Page2 : Page := { url := "u2", text := "a  b" }

/-- The value-level fold over centroid and running weight that
`TopicUpdater.apply` performs when the `weight_sum` attribute exists. -/
def weightFold (recency_lambda now : ℝ) (cw : Option Vec × ℝ) (docs : List Doc) :
    Option Vec × ℝ :=
  docs.foldl (fun cw d =>
    let r := weighted_incremental_mean cw.1 cw.2 d.vec
      (d.authority * time_weight recency_lambda now d.ts)
    (some r.1, r.2)) cw

/-- C5: for every call to `ClusterSmoother.update`, after the three EMA
updates (vector centroid, cohesion, separation) with factor
`beta = topic.policy.ema_beta_cluster`, the persistence counter becomes
`state.persistence + 1` exactly when the meets predicate holds (raw
`snapshot.size ≥ m_min` and smoothed `cohesion_ema ≥ tau_cohesion` and
`(1 - smoothed separation_ema) ≤ tau_separation`), and becomes `0` otherwise;
it is never decremented in any other way. -/
theorem C5_smoother_persistence (S : Storage) (t : Topic) (snap : ClusterSnapshot)
    (st : ClusterState) (now : ℝ) :
    (ClusterSmoother.update t.policy.ema_beta_cluster S t snap st now).1.cohesion_ema =
      (1 - t.policy.ema_beta_cluster) * st.cohesion_ema +
        t.policy.ema_beta_cluster * snap.cohesion_now ∧
    (ClusterSmoother.update t.policy.ema_beta_cluster S t snap st now).1.separation_ema =
      (1 - t.policy.ema_beta_cluster) * st.separation_ema +
        t.policy.ema_beta_cluster * snap.separation_now ∧
    (ClusterSmoother.update t.policy.ema_beta_cluster S t snap st now).1.centroid_ema =
      some (ema_update_vec st.centroid_ema snap.centroid_now t.policy.ema_beta_cluster) ∧
    (ClusterSmoother.update t.policy.ema_beta_cluster S t snap st now).1.persistence =
      (if snap.size ≥ t.policy.m_min ∧
          (1 - t.policy.ema_beta_cluster) * st.cohesion_ema +
            t.policy.ema_beta_cluster * snap.cohesion_now ≥ t.policy.tau_cohesion ∧
          1 - ((1 - t.policy.ema_beta_cluster) * st.separation_ema +
            t.policy.ema_beta_cluster * snap.separation_now) ≤ t.policy.tau_separation
       then st.persistence + 1 else 0) ∧
    ((ClusterSmoother.update t.policy.ema_beta_cluster S t snap st now).1.persistence = 0 ∨
     (ClusterSmoother.update t.policy.ema_beta_cluster S t snap st now).1.persistence =
       st.persistence + 1) ∧
    (ClusterSmoother.update t.policy.ema_beta_cluster S t snap st now).2 =
      S.save_cluster_state t.id
        (ClusterSmoother.update t.policy.ema_beta_cluster S t snap st now).1 := by
  refine ⟨rfl, rfl, rfl, rfl, ?_, rfl⟩
  have hp : (ClusterSmoother.update t.policy.ema_beta_cluster S t snap st now).1.persistence =
      (if snap.size ≥ t.policy.m_min ∧
          (1 - t.policy.ema_beta_cluster) * st.cohesion_ema +
            t.policy.ema_beta_cluster * snap.cohesion_now ≥ t.policy.tau_cohesion ∧
          1 - ((1 - t.policy.ema_beta_cluster) * st.separation_ema +
            t.policy.ema_beta_cluster * snap.separation_now) ≤ t.policy.tau_separation
       then st.persistence + 1 else 0) := rfl
  rw [hp]
  by_cases h : snap.size ≥ t.policy.m_min ∧
      (1 - t.policy.ema_beta_cluster) * st.cohesion_ema +
        t.policy.ema_beta_cluster * snap.cohesion_now ≥ t.policy.tau_cohesion ∧
      1 - ((1 - t.policy.ema_beta_cluster) * st.separation_ema +
        t.policy.ema_beta_cluster * snap.separation_now) ≤ t.policy.tau_separation
  · right
    rw [if_pos h]
  · left
    rw [if_neg h]

/-- C10: on the first smoother update of a freshly created candidate state
(null `centroid_ema`, zero scalar EMAs), `centroid_ema` becomes an exact copy
of `snapshot.centroid_now` regardless of beta, but `cohesion_ema` becomes
`beta * cohesion_now` and `separation_ema` becomes `beta * separation_now`:
the scalar EMAs bootstrap from zero rather than from the first observation,
so the smoothed cohesion of a new candidate sits strictly below the raw
observation on its first tick. -/
theorem C10_bootstrap (beta : ℝ) (S : Storage) (t : Topic) (snap : ClusterSnapshot)
    (st : ClusterState) (now : ℝ)
    (hc : st.centroid_ema = none) (h1 : st.cohesion_ema = 0) (h2 : st.separation_ema = 0) :
    (ClusterSmoother.update beta S t snap st now).1.centroid_ema = some snap.centroid_now ∧
    (ClusterSmoother.update beta S t snap st now).1.cohesion_ema = beta * snap.cohesion_now ∧
    (ClusterSmoother.update beta S t snap st now).1.separation_ema =
      beta * snap.separation_now ∧
    (0 < beta → beta < 1 → 0 < snap.cohesion_now →
      (ClusterSmoother.update beta S t snap st now).1.cohesion_ema < snap.cohesion_now) := by
  refine ⟨?_, ?_, ?_, ?_⟩
  · simp [ClusterSmoother.update, hc, ema_update_vec]
  · simp [ClusterSmoother.update, h1]
  · simp [ClusterSmoother.update, h2]
  · intro hb0 hb1 hcoh
    have hmul : beta * snap.cohesion_now < 1 * snap.cohesion_now :=
      mul_lt_mul_of_pos_right hb1 hcoh
    have he : (ClusterSmoother.update beta S t snap st now).1.cohesion_ema =
        beta * snap.cohesion_now := by
      simp [ClusterSmoother.update, h1]
    rw [he]
    linarith

/-- Witness for C10: the concrete fresh state `c10State` smoothed against
`cexSnap` (cohesion 1) with beta `1/4` copies the centroid and sets
`cohesion_ema = 1/4 < 1`. -/
theorem C10_bootstrap_witness :
    c10State.centroid_ema = none ∧ c10State.cohesion_ema = 0 ∧ c10State.separation_ema = 0 ∧
    (ClusterSmoother.update (1 / 4) c6Storage cexTopic cexSnap c10State 5).1.centroid_ema =
      some cexSnap.centroid_now ∧
    (ClusterSmoother.update (1 / 4) c6Storage cexTopic cexSnap c10State 5).1.cohesion_ema =
      1 / 4 * cexSnap.cohesion_now ∧
    (ClusterSmoother.update (1 / 4) c6Storage cexTopic cexSnap c10State 5).1.cohesion_ema <
      cexSnap.cohesion_now := by
  obtain ⟨a, b, c, d⟩ :=
    C10_bootstrap (1 / 4) c6Storage cexTopic cexSnap c10State 5 rfl rfl rfl
  exact ⟨rfl, rfl, rfl, a, b, d (by norm_num) (by norm_num) (by norm_num [cexSnap])⟩

/-- Membership characterization of the deletion fold inside
`ClusterMatcher.expire_stale`: an entry survives the fold iff it was present
and its key is not targeted by any stale state of the iterated list. -/
theorem expire_fold_mem (tid : String) (mad : ℤ) (now : ℝ) (L : List ClusterState) :
    ∀ (acc : Storage) (key : String × String) (st : ClusterState),
      (key, st) ∈ (L.foldl (fun a s =>
          if now - s.last_seen_ts ≥ (mad : ℝ) * 86400
          then a.delete_cluster_state tid s.cluster_id else a) acc).cluster_state ↔
      ((key, st) ∈ acc.cluster_state ∧
        ∀ s0 ∈ L, now - s0.last_seen_ts ≥ (mad : ℝ) * 86400 → key ≠ (tid, s0.cluster_id)) := by
  induction L with
  | nil =>
    intro acc key st
    simp
  | cons s0 L ih =>
    intro acc key st
    rw [List.foldl_cons, ih]
    by_cases hs : now - s0.last_seen_ts ≥ (mad : ℝ) * 86400
    · rw [if_pos hs]
      simp only [Storage.delete_cluster_state, dictPop, List.mem_filter,
        decide_eq_true_eq, List.mem_cons]
      constructor
      · rintro ⟨⟨hmem, hne⟩, hall⟩
        refine ⟨hmem, ?_⟩
        rintro s1 (rfl | hs1) hstale
        · exact hne
        · exact hall s1 hs1 hstale
      · rintro ⟨hmem, hall⟩
        exact ⟨⟨hmem, hall s0 (Or.inl rfl) hs⟩, fun s1 hs1 hstale =>
          hall s1 (Or.inr hs1) hstale⟩
    · rw [if_neg hs]
      constructor
      · rintro ⟨hmem, hall⟩
        refine ⟨hmem, ?_⟩
        intro s1 hs1 hstale
        rcases List.mem_cons.mp hs1 with rfl | hs1
        · exact absurd hstale hs
        · exact hall s1 hs1 hstale
      · rintro ⟨hmem, hall⟩
        exact ⟨hmem, fun s1 hs1 hstale => hall s1 (List.mem_cons_of_mem s0 hs1) hstale⟩

/-- C8: after `expire_stale(storage, topic_id, max_age_days)` runs on a
well-formed store (states recorded under their own cluster id, no duplicate
keys), a persisted candidate state of that topic remains in storage if and
only if `now - state.last_seen_ts < max_age_days * 86400`; every state at or
past that age is deleted, unconditionally. -/
theorem C8_expire_stale (S : Storage) (tid : String) (mad : ℤ) (now : ℝ)
    (hwf : ∀ k st, ((k, st) : (String × String) × ClusterState) ∈ S.cluster_state →
      st.cluster_id = k.2)
    (hnd : (S.cluster_state.map Prod.fst).Nodup) :
    ∀ cid st, (((tid, cid), st) ∈ (ClusterMatcher.expire_stale S tid mad now).cluster_state ↔
      (((tid, cid), st) ∈ S.cluster_state ∧ now - st.last_seen_ts < (mad : ℝ) * 86400)) := by
  intro cid st
  unfold ClusterMatcher.expire_stale
  rw [expire_fold_mem]
  constructor
  · rintro ⟨hmem, hall⟩
    refine ⟨hmem, ?_⟩
    by_contra hge
    push_neg at hge
    have hst : st ∈ ClusterMatcher.list_states S tid := by
      unfold ClusterMatcher.list_states
      refine List.mem_map.mpr ⟨((tid, cid), st), ?_, rfl⟩
      rw [List.mem_filter]
      exact ⟨hmem, by simp⟩
    have hid : st.cluster_id = cid := hwf (tid, cid) st hmem
    exact hall st hst hge (by rw [hid])
  · rintro ⟨hmem, hlt⟩
    refine ⟨hmem, ?_⟩
    intro s0 hs0 hstale hkey
    unfold ClusterMatcher.list_states at hs0
    rcases List.mem_map.mp hs0 with ⟨⟨⟨k1, k2⟩, v⟩, he, hv⟩
    rw [List.mem_filter] at he
    obtain ⟨heS, htid⟩ := he
    rw [decide_eq_true_eq] at htid
    subst hv
    have hid : v.cluster_id = k2 := hwf (k1, k2) v heS
    have hcid : cid = k2 := by
      have h2 := ((Prod.mk.injEq tid cid tid v.cluster_id).mp hkey).2
      rw [h2, hid]
    have hkeys : ((tid, cid) : String × String) = (k1, k2) := by
      rw [← htid, hcid]
    have heq : (((tid, cid), st) : (String × String) × ClusterState) = ((k1, k2), v) :=
      List.inj_on_of_nodup_map hnd hmem heS hkeys
    have hst : st = v := ((Prod.mk.injEq _ _ _ _).mp heq).2
    rw [← hst] at hstale
    exact absurd hstale (not_le.mpr hlt)

/-- Witness for C8: in the concrete store `c8Storage` with
`max_age_days = 1` at `now = 86405`, the state last seen at 86400 survives
and the state last seen at 0 is deleted. -/
theorem C8_expire_stale_witness :
    ((("T", "new"), c8Fresh) ∈
      (ClusterMatcher.expire_stale c8Storage "T" 1 86405).cluster_state) ∧
    ¬ ((("T", "old"), c8Stale) ∈
      (ClusterMatcher.expire_stale c8Storage "T" 1 86405).cluster_state) := by
  have hwf : ∀ k st, ((k, st) : (String × String) × ClusterState) ∈
      c8Storage.cluster_state → st.cluster_id = k.2 := by
    intro k st hmem
    simp only [c8Storage, List.mem_cons, List.not_mem_nil, or_false] at hmem
    rcases hmem with h | h <;>
    · simp only [Prod.mk.injEq] at h
      obtain ⟨hk, hst⟩ := h
      subst hk
      subst hst
      rfl
  have hnd : (c8Storage.cluster_state.map Prod.fst).Nodup := by
    simp [c8Storage]
  have h := C8_expire_stale c8Storage "T" 1 86405 hwf hnd
  constructor
  · exact (h "new" c8Fresh).mpr ⟨by simp [c8Storage], by norm_num [c8Fresh]⟩
  · intro hmem
    have := ((h "old" c8Stale).mp hmem).2
    norm_num [c8Stale] at this

/-- C9 counterexample: the claim asserts an epsilon-guarded division
`c = (c_prev·W_prev + e·w) / max(W, ε)` and totality; at
`c_prev = [2], W_prev = 1, e = [4], w = -1` the source divides by
`W = W_prev + w = 0` with no clamp and raises `ZeroDivisionError`, while the
spec's guarded formula would return the finite value `[-2·10¹²]`. -/
theorem C9_counterexample :
    weighted_incremental_mean_run (some [2]) 1 [4] (-1) = Except.error "ZeroDivisionError" ∧
    weighted_incremental_mean_spec (some [2]) 1 [4] (-1) = ([-2 * 10 ^ 12], 0) := by
  constructor
  · norm_num [weighted_incremental_mean_run]
  · norm_num [weighted_incremental_mean_spec, eps]

/-- C9 amended: `weighted_incremental_mean(c_prev, W_prev, e, w)` bootstraps
with a copy of `e` when `c_prev` is absent or `W_prev ≤ 0`; otherwise it
computes `W = W_prev + w` and `c = (c_prev·W_prev + e·w) / W` with no epsilon
guard, so it raises `ZeroDivisionError` whenever `W = 0` and the zipped
vectors are non-empty. -/
theorem C9_amended (c_prev : Option Vec) (W_prev : ℝ) (e : Vec) (w : ℝ) :
    (c_prev = none → weighted_incremental_mean_run c_prev W_prev e w = .ok (e, w)) ∧
    (W_prev ≤ 0 → weighted_incremental_mean_run c_prev W_prev e w = .ok (e, w)) ∧
    (∀ c, c_prev = some c → 0 < W_prev → W_prev + w ≠ 0 →
      weighted_incremental_mean_run c_prev W_prev e w =
        .ok ((c.zip e).map (fun p => (p.1 * W_prev + p.2 * w) / (W_prev + w)), W_prev + w)) ∧
    (∀ c, c_prev = some c → 0 < W_prev → W_prev + w = 0 → c.zip e ≠ [] →
      weighted_incremental_mean_run c_prev W_prev e w = .error "ZeroDivisionError") := by
  refine ⟨?_, ?_, ?_, ?_⟩
  · rintro rfl
    rfl
  · intro hW
    cases c_prev with
    | none => rfl
    | some c => simp [weighted_incremental_mean_run, hW]
  · rintro c rfl hW hWw
    have hns : ¬ W_prev ≤ 0 := not_le.mpr hW
    simp [weighted_incremental_mean_run, hns, hWw]
  · rintro c rfl hW hWw hz
    have hns : ¬ W_prev ≤ 0 := not_le.mpr hW
    simp [weighted_incremental_mean_run, hns, hWw, hz]

/-- Witness for C9 amended: a non-degenerate update `(c_prev=[2], W_prev=1,
e=[4], w=1)` succeeds with `c = [(2·1 + 4·1)/2] = [3]` and `W = 2`. -/
theorem C9_amended_witness :
    weighted_incremental_mean_run (some [2]) 1 [4] 1 = .ok ([3], 2) := by
  have h := (C9_amended (some [2]) 1 [4] 1).2.2.1 [2] rfl (by norm_num) (by norm_num)
  norm_num at h
  simpa using h

/-- Evaluation of `cosSim` on aligned one-dimensional unit vectors. -/
theorem cosSim_one_one : cosSim ([1] : Vec) [1] = 1 := by
  unfold cosSim normv dot
  simp only [List.zip_cons_cons, List.zip_nil_right, List.map_cons, List.map_nil,
    List.sum_cons, List.sum_nil, one_mul, add_zero]
  rw [max_eq_right (by norm_num [eps]), Real.sqrt_one]
  norm_num

/-- Evaluation of `cosSim` on opposite one-dimensional unit vectors. -/
theorem cosSim_one_negone : cosSim ([1] : Vec) [-1] = -1 := by
  unfold cosSim normv dot
  simp only [List.zip_cons_cons, List.zip_nil_right, List.map_cons, List.map_nil,
    List.sum_cons, List.sum_nil, one_mul, add_zero, mul_neg, mul_one, neg_neg]
  rw [max_eq_right (by norm_num [eps]), Real.sqrt_one]
  norm_num

/-- Case analysis for the greedy loop of `match_or_create`: it either leaves
the accumulator untouched or returns a member state with its similarity,
strictly above the starting similarity. -/
theorem bestLoop_cases (c : Vec) (L : List ClusterState) :
    ∀ (b : Option ClusterState) (s : ℝ),
      bestLoop c L b s = (b, s) ∨
      (∃ st ∈ L, ∃ ce, st.centroid_ema = some ce ∧
        bestLoop c L b s = (some st, cosSim c ce) ∧ s < cosSim c ce) := by
  induction L with
  | nil =>
    intro b s
    left
    rfl
  | cons st0 L ih =>
    intro b s
    cases hce : st0.centroid_ema with
    | none =>
      have hstep : bestLoop c (st0 :: L) b s = bestLoop c L b s := by
        simp [bestLoop, hce]
      rcases ih b s with h | ⟨st, hst, ce, hce2, heq, hlt⟩
      · left
        rw [hstep, h]
      · right
        exact ⟨st, List.mem_cons_of_mem st0 hst, ce, hce2, by rw [hstep, heq], hlt⟩
    | some ce0 =>
      by_cases hgt : cosSim c ce0 > s
      · have hstep : bestLoop c (st0 :: L) b s = bestLoop c L (some st0) (cosSim c ce0) := by
          simp [bestLoop, hce, hgt]
        rcases ih (some st0) (cosSim c ce0) with h | ⟨st, hst, ce, hce2, heq, hlt⟩
        · right
          exact ⟨st0, List.mem_cons_self st0 L, ce0, hce, by rw [hstep, h], hgt⟩
        · right
          exact ⟨st, List.mem_cons_of_mem st0 hst, ce, hce2, by rw [hstep, heq],
            lt_trans hgt hlt⟩
      · have hstep : bestLoop c (st0 :: L) b s = bestLoop c L b s := by
          simp [bestLoop, hce, hgt]
        rcases ih b s with h | ⟨st, hst, ce, hce2, heq, hlt⟩
        · left
          rw [hstep, h]
        · right
          exact ⟨st, List.mem_cons_of_mem st0 hst, ce, hce2, by rw [hstep, heq], hlt⟩

/-- The greedy loop keeps its accumulator when no remaining state exceeds the
accumulated similarity. -/
theorem bestLoop_const (c : Vec) (L : List ClusterState) :
    ∀ (b : Option ClusterState) (s : ℝ),
      (∀ st ∈ L, ∀ ce, st.centroid_ema = some ce → cosSim c ce ≤ s) →
      bestLoop c L b s = (b, s) := by
  induction L with
  | nil =>
    intro b s _
    rfl
  | cons st0 L ih =>
    intro b s hall
    cases hce : st0.centroid_ema with
    | none =>
      have hstep : bestLoop c (st0 :: L) b s = bestLoop c L b s := by
        simp [bestLoop, hce]
      rw [hstep]
      exact ih b s (fun st hst ce hce2 => hall st (List.mem_cons_of_mem st0 hst) ce hce2)
    | some ce0 =>
      have hle : cosSim c ce0 ≤ s := hall st0 (List.mem_cons_self st0 L) ce0 hce
      have hstep : bestLoop c (st0 :: L) b s = bestLoop c L b s := by
        simp [bestLoop, hce, not_lt.mpr hle]
      rw [hstep]
      exact ih b s (fun st hst ce hce2 => hall st (List.mem_cons_of_mem st0 hst) ce hce2)

/-- The greedy loop splits along list concatenation. -/
theorem bestLoop_append (c : Vec) (L1 L2 : List ClusterState) :
    ∀ (b : Option ClusterState) (s : ℝ),
      bestLoop c (L1 ++ L2) b s =
        bestLoop c L2 (bestLoop c L1 b s).1 (bestLoop c L1 b s).2 := by
  induction L1 with
  | nil =>
    intro b s
    rfl
  | cons st0 L1 ih =>
    intro b s
    cases hce : st0.centroid_ema with
    | none =>
      simp [bestLoop, hce, ih]
    | some ce0 =>
      by_cases hgt : cosSim c ce0 > s
      · simp [bestLoop, hce, hgt, ih]
      · simp [bestLoop, hce, hgt, ih]

/-- C6 counterexample: the unique persisted state has centroid `[-1]`, so the
maximum cosine similarity to the snapshot centroid `[1]` is exactly `-1`,
which is `≥ tau_match = -2`; the claim then demands that state be returned,
but the source's loop sentinel `best_sim = -1.0` with a strict comparison
never selects it, and a fresh `cand_` state is created instead. -/
theorem C6_counterexample :
    cosSim ([1] : Vec) [-1] = -1 ∧ ((-1 : ℝ) ≥ -2) ∧
    (ClusterMatcher.match_or_create (-2) c6Storage cexTopic c6Snap "0123456789abcdef" 7).1.cluster_id = "cand_01234567" ∧
    (ClusterMatcher.match_or_create (-2) c6Storage cexTopic c6Snap "0123456789abcdef" 7).1 ≠ c6State := by
  have hstates : ClusterMatcher.list_states c6Storage cexTopic.id = [c6State] := by
    simp [ClusterMatcher.list_states, c6Storage, cexTopic, Topic.id, Topic.base]
  have hloop : bestLoop c6Snap.centroid_now [c6State] none (-1) = (none, -1) := by
    have : ¬ cosSim c6Snap.centroid_now [-1] > (-1 : ℝ) := by
      rw [show c6Snap.centroid_now = ([1] : Vec) from rfl, cosSim_one_negone]
      norm_num
    simp [bestLoop, c6State, this]
  have hrun : ClusterMatcher.match_or_create (-2) c6Storage cexTopic c6Snap
      "0123456789abcdef" 7 =
      ({ cluster_id := "cand_" ++ "0123456789abcdef".take 8, last_seen_ts := 7 },
       c6Storage.save_cluster_state cexTopic.id
         { cluster_id := "cand_" ++ "0123456789abcdef".take 8, last_seen_ts := 7 }) := by
    simp only [ClusterMatcher.match_or_create]
    rw [hstates, hloop]
  refine ⟨cosSim_one_negone, by norm_num, ?_, ?_⟩
  · rw [hrun]
    decide
  · rw [hrun]
    intro h
    have := congrArg ClusterState.cluster_id h
    simp only [c6State] at this
    revert this
    decide

/-- C6 amended: `match_or_create` returns the persisted candidate state with
the maximum cosine similarity between `snapshot.centroid_now` and
`state.centroid_ema` (null-centroid states invisible, ties broken by first
encountered) whenever that maximum is `≥ tau_match` and exceeds the loop
sentinel `-1`; otherwise — including when every similarity is `≤ -1` even if
`-1 ≥ tau_match` — it creates, persists, and returns a new state with id
`cand_<first 8 of the uuid hex>`, null `centroid_ema`, zeroed scalar EMAs,
`persistence = 0`, and `last_seen_ts = now`. -/
theorem C6_amended (tau : ℝ) (S : Storage) (t : Topic) (snap : ClusterSnapshot)
    (uuidHex : String) (now : ℝ) :
    (∀ L1 st L2 ce, ClusterMatcher.list_states S t.id = L1 ++ st :: L2 →
      st.centroid_ema = some ce →
      -1 < cosSim snap.centroid_now ce →
      tau ≤ cosSim snap.centroid_now ce →
      (∀ st1 ∈ L1, ∀ ce1, st1.centroid_ema = some ce1 →
        cosSim snap.centroid_now ce1 < cosSim snap.centroid_now ce) →
      (∀ st2 ∈ L2, ∀ ce2, st2.centroid_ema = some ce2 →
        cosSim snap.centroid_now ce2 ≤ cosSim snap.centroid_now ce) →
      ClusterMatcher.match_or_create tau S t snap uuidHex now = (st, S)) ∧
    ((∀ st ∈ ClusterMatcher.list_states S t.id, ∀ ce, st.centroid_ema = some ce →
        cosSim snap.centroid_now ce ≤ -1 ∨ cosSim snap.centroid_now ce < tau) →
      ClusterMatcher.match_or_create tau S t snap uuidHex now =
        ({ cluster_id := "cand_" ++ uuidHex.take 8, centroid_ema := none, cohesion_ema := 0,
           separation_ema := 0, persistence := 0, last_seen_ts := now },
         S.save_cluster_state t.id
           { cluster_id := "cand_" ++ uuidHex.take 8, centroid_ema := none, cohesion_ema := 0,
             separation_ema := 0, persistence := 0, last_seen_ts := now })) := by
  constructor
  · intro L1 st L2 ce hsplit hce hm1 hmtau hL1 hL2
    have hpre : (bestLoop snap.centroid_now L1 none (-1)).2 < cosSim snap.centroid_now ce := by
      rcases bestLoop_cases snap.centroid_now L1 none (-1) with h | ⟨st1, hst1, ce1, hce1, heq, _⟩
      · rw [h]
        exact hm1
      · rw [heq]
        exact hL1 st1 hst1 ce1 hce1
    have hloop : bestLoop snap.centroid_now (ClusterMatcher.list_states S t.id) none (-1) =
        (some st, cosSim snap.centroid_now ce) := by
      rw [hsplit, bestLoop_append]
      have hstep : bestLoop snap.centroid_now (st :: L2)
          (bestLoop snap.centroid_now L1 none (-1)).1
          (bestLoop snap.centroid_now L1 none (-1)).2 =
          bestLoop snap.centroid_now L2 (some st) (cosSim snap.centroid_now ce) := by
        simp [bestLoop, hce, hpre]
      rw [hstep]
      exact bestLoop_const snap.centroid_now L2 (some st) (cosSim snap.centroid_now ce) hL2
    simp only [ClusterMatcher.match_or_create]
    rw [hloop]
    simp [hmtau]
  · intro hall
    simp only [ClusterMatcher.match_or_create]
    rcases bestLoop_cases snap.centroid_now (ClusterMatcher.list_states S t.id) none (-1) with
      h | ⟨st, hst, ce, hce, heq, hlt⟩
    · rw [h]
    · rw [heq]
      rcases hall st hst ce hce with hle | hlttau
      · exact absurd hle (not_le.mpr hlt)
      · simp [not_le.mpr hlttau]

/-- The recency weight of `TopicUpdater._time_weight` is strictly positive. -/
theorem time_weight_pos (lam now ts : ℝ) : 0 < time_weight lam now ts := by
  unfold time_weight
  by_cases h : lam > 0
  · rw [if_pos h]
    exact Real.exp_pos _
  · rw [if_neg h]
    norm_num

/-- Away from the zero-divisor case, the raising embedding of
`weighted_incremental_mean` agrees with the value-level one. -/
theorem wim_run_ok (c_prev : Option Vec) (W_prev : ℝ) (e : Vec) (w : ℝ)
    (h : c_prev = none ∨ W_prev ≤ 0 ∨ W_prev + w ≠ 0) :
    weighted_incremental_mean_run c_prev W_prev e w =
      .ok (weighted_incremental_mean c_prev W_prev e w) := by
  cases c_prev with
  | none => rfl
  | some c =>
    by_cases hW : W_prev ≤ 0
    · simp [weighted_incremental_mean_run, weighted_incremental_mean, hW]
    · have hne : W_prev + w ≠ 0 := by
        rcases h with h | h | h
        · cases h
        · exact absurd h hW
        · exact h
      simp [weighted_incremental_mean_run, weighted_incremental_mean, hW, hne]

/-- One update step of `TopicUpdater.apply` succeeds when the running weight
attribute exists and the document authority is non-negative. -/
theorem applyDoc_ok (lam now : ℝ) (b : TopicBase) (d : Doc) (W0 : ℝ)
    (hw : b.weight_sum = some W0) (ha : 0 ≤ d.authority) :
    TopicUpdater.applyDoc lam now b d = .ok { b with
      centroid_long := some (weighted_incremental_mean b.centroid_long W0 d.vec
        (d.authority * time_weight lam now d.ts)).1,
      weight_sum := some (weighted_incremental_mean b.centroid_long W0 d.vec
        (d.authority * time_weight lam now d.ts)).2 } := by
  have hwpos : 0 ≤ d.authority * time_weight lam now d.ts :=
    mul_nonneg ha (le_of_lt (time_weight_pos lam now d.ts))
  have hcond : b.centroid_long = none ∨ W0 ≤ 0 ∨
      W0 + d.authority * time_weight lam now d.ts ≠ 0 := by
    cases hc : b.centroid_long with
    | none => exact Or.inl rfl
    | some c =>
      rcases le_or_lt W0 0 with hW | hW
      · exact Or.inr (Or.inl hW)
      · exact Or.inr (Or.inr (by positivity))
  simp only [TopicUpdater.applyDoc, hw]
  rw [wim_run_ok b.centroid_long W0 d.vec (d.authority * time_weight lam now d.ts) hcond]

/-- The fold inside `TopicUpdater.apply` computes exactly `weightFold` when
the weight attribute exists and all authorities are non-negative. -/
theorem foldlM_applyDoc_ok (lam now : ℝ) (docs : List Doc) :
    ∀ (b : TopicBase) (W0 : ℝ), b.weight_sum = some W0 →
      (∀ d ∈ docs, 0 ≤ d.authority) →
      docs.foldlM (TopicUpdater.applyDoc lam now) b =
        .ok { b with centroid_long := (weightFold lam now (b.centroid_long, W0) docs).1,
                     weight_sum := some (weightFold lam now (b.centroid_long, W0) docs).2 } := by
  induction docs with
  | nil =>
    intro b W0 hw _
    simp only [List.foldlM_nil, weightFold, List.foldl_nil]
    rw [← hw]
    rfl
  | cons d rest ih =>
    intro b W0 hw hpos
    rw [List.foldlM_cons,
      applyDoc_ok lam now b d W0 hw (hpos d (List.mem_cons_self d rest))]
    have hstep := ih { b with
        centroid_long := some (weighted_incremental_mean b.centroid_long W0 d.vec
          (d.authority * time_weight lam now d.ts)).1,
        weight_sum := some (weighted_incremental_mean b.centroid_long W0 d.vec
          (d.authority * time_weight lam now d.ts)).2 }
      (weighted_incremental_mean b.centroid_long W0 d.vec
        (d.authority * time_weight lam now d.ts)).2 rfl
      (fun d2 hd2 => hpos d2 (List.mem_cons_of_mem d hd2))
    exact hstep

/-- One failing step of `TopicUpdater.apply` propagates: fields other than
the centroid/weight pair are never modified by `applyDoc`. -/
theorem applyDoc_preserves (lam now : ℝ) (b b2 : TopicBase) (d : Doc)
    (h : TopicUpdater.applyDoc lam now b d = .ok b2) :
    b2.id = b.id ∧ b2.doc_count = b.doc_count ∧ b2.name = b.name ∧
    b2.seeds = b.seeds ∧ b2.negative = b.negative ∧ b2.policy = b.policy ∧
    b2.centroid_short_ema = b.centroid_short_ema ∧ b2.emerged_from = b.emerged_from ∧
    b2.last_updated_ts = b.last_updated_ts := by
  cases hw : b.weight_sum with
  | none =>
    simp [TopicUpdater.applyDoc, hw] at h
  | some W =>
    simp only [TopicUpdater.applyDoc, hw] at h
    cases hr : weighted_incremental_mean_run b.centroid_long W d.vec
        (d.authority * time_weight lam now d.ts) with
    | error e =>
      rw [hr] at h
      simp at h
    | ok r =>
      rw [hr] at h
      simp only [Except.ok.injEq] at h
      rw [← h]
      exact ⟨rfl, rfl, rfl, rfl, rfl, rfl, rfl, rfl, rfl⟩

/-- Field preservation across the whole fold of `TopicUpdater.apply`. -/
theorem foldlM_applyDoc_preserves (lam now : ℝ) (docs : List Doc) :
    ∀ b b2, docs.foldlM (TopicUpdater.applyDoc lam now) b = .ok b2 →
      b2.id = b.id ∧ b2.doc_count = b.doc_count ∧ b2.name = b.name ∧
      b2.seeds = b.seeds ∧ b2.negative = b.negative ∧ b2.policy = b.policy := by
  induction docs with
  | nil =>
    intro b b2 h
    simp only [List.foldlM_nil] at h
    cases h
    exact ⟨rfl, rfl, rfl, rfl, rfl, rfl⟩
  | cons d rest ih =>
    intro b b2 h
    rw [List.foldlM_cons] at h
    cases hd : TopicUpdater.applyDoc lam now b d with
    | error e =>
      rw [hd] at h
      exact Except.noConfusion h
    | ok b1 =>
      rw [hd] at h
      have hrest : rest.foldlM (TopicUpdater.applyDoc lam now) b1 = .ok b2 := h
      have h1 := applyDoc_preserves lam now b b1 d hd
      have h2 := ih b1 b2 hrest
      exact ⟨h2.1.trans h1.1, h2.2.1.trans h1.2.1, h2.2.2.1.trans h1.2.2.1,
        h2.2.2.2.1.trans h1.2.2.2.1, h2.2.2.2.2.1.trans h1.2.2.2.2.1,
        h2.2.2.2.2.2.trans h1.2.2.2.2.2.1⟩

/-- Projection lemma for `Topic.withBase`. -/
theorem Topic.withBase_base (t : Topic) (b : TopicBase) : (t.withBase b).base = b := by
  cases t
  rfl

/-- `Topic.withBase` keeps the children list. -/
theorem Topic.withBase_children (t : Topic) (b : TopicBase) :
    (t.withBase b).children = t.children := by
  cases t
  rfl

/-- Whenever `TopicUpdater.apply` succeeds it preserves `doc_count`, `id`,
`children` and the policy bundle, and stamps `last_updated_ts = now`. -/
theorem apply_ok_fields (lam now : ℝ) (t t2 : Topic) (docs : List Doc)
    (h : TopicUpdater.apply lam t docs now = .ok t2) :
    t2.id = t.id ∧ t2.doc_count = t.doc_count ∧ t2.children = t.children ∧
    t2.base.last_updated_ts = now ∧ t2.base.negative = t.base.negative ∧
    t2.base.policy = t.base.policy ∧ t2.base.seeds = t.base.seeds := by
  unfold TopicUpdater.apply at h
  cases hf : docs.foldlM (TopicUpdater.applyDoc lam now) t.base with
  | error e =>
    rw [hf] at h
    exact Except.noConfusion h
  | ok b2 =>
    rw [hf] at h
    have hok : Except.ok (t.withBase { b2 with last_updated_ts := now }) =
        (.ok t2 : Except String Topic) := h
    have h : t.withBase { b2 with last_updated_ts := now } = t2 := by
      cases hok
      rfl
    have hp := foldlM_applyDoc_preserves lam now docs t.base b2 hf
    rw [← h]
    refine ⟨?_, ?_, Topic.withBase_children t _, ?_, ?_, ?_, ?_⟩
    · show (t.withBase _).base.id = t.base.id
      rw [Topic.withBase_base]
      exact hp.1
    · show (t.withBase _).base.doc_count = t.base.doc_count
      rw [Topic.withBase_base]
      exact hp.2.1
    · rw [Topic.withBase_base]
    · rw [Topic.withBase_base]
      exact hp.2.2.2.2.1
    · rw [Topic.withBase_base]
      exact hp.2.2.2.2.2
    · rw [Topic.withBase_base]
      exact hp.2.2.2.1

/-- The inner loop of `SeenDeduper.drop` never emits a hash that is in the
seen set or in the running batch set, and emits each hash at most once. -/
theorem dedup_go_spec (seen : List String) (docs : List Doc) :
    ∀ batch, ((SeenDeduper.go seen docs batch).map Doc.hash).Nodup ∧
      (∀ d ∈ SeenDeduper.go seen docs batch, d.hash ∉ seen ∧ d.hash ∉ batch) := by
  induction docs with
  | nil =>
    intro batch
    simp [SeenDeduper.go]
  | cons d ds ih =>
    intro batch
    by_cases hs : d.hash ∈ seen
    · simp only [SeenDeduper.go, if_pos hs]
      exact ih batch
    · by_cases hb : d.hash ∈ batch
      · simp only [SeenDeduper.go, if_neg hs, if_pos hb]
        exact ih batch
      · simp only [SeenDeduper.go, if_neg hs, if_neg hb]
        obtain ⟨hnd, hmem⟩ := ih (batch ++ [d.hash])
        constructor
        · simp only [List.map_cons, List.nodup_cons]
          refine ⟨?_, hnd⟩
          intro hin
          rcases List.mem_map.mp hin with ⟨d2, hd2, hh⟩
          have hnb := (hmem d2 hd2).2
          rw [hh] at hnb
          exact hnb (by simp)
        · intro d2 hd2
          rcases List.mem_cons.mp hd2 with rfl | hd2
          · exact ⟨hs, hb⟩
          · have hres := hmem d2 hd2
            exact ⟨hres.1, fun hbm => hres.2 (List.mem_append_left _ hbm)⟩

/-- C3 counterexample: the claim says a page without a supplied hash gets a
hash derived from the normalized text (lowercase, whitespace-collapsed,
SHA-256), so texts that normalize identically hash equally; the source
instead applies Python's builtin `hash` to the raw text
(`p.get("hash") or str(hash(p["text"]))`), so `"A B"` and `"a  b"` — equal
after normalization — receive different hashes. -/
theorem C3_counterexample :
    normalizeText c3Page1.text = normalizeText c3Page2.text ∧
    c3Page1.hash = none ∧ c3Page2.hash = none ∧
    (assembleDoc pyHashModel "i1" 0 c3Page1 [1]).hash ≠
      (assembleDoc pyHashModel "i2" 0 c3Page2 [1]).hash := by
  refine ⟨by decide, rfl, rfl, ?_⟩
  show toString (pyHashModel "A B") ≠ toString (pyHashModel "a  b")
  decide

/-- C3 amended: for every fetched page that does not supply a hash, the
assembled document's hash is `str(hash(text))` for the raw, un-normalized
text — deterministic within one interpreter run — so two pages with equal
raw text always receive equal hashes; and documents with equal hash are
treated as duplicates: the deduper keeps at most one document per hash and
drops every previously seen hash. -/
theorem C3_amended (pyHash : String → ℤ) (id1 id2 : String) (now1 now2 : ℝ)
    (p1 p2 : Page) (v1 v2 : Vec)
    (h1 : p1.hash = none) (h2 : p2.hash = none) (ht : p1.text = p2.text) :
    (assembleDoc pyHash id1 now1 p1 v1).hash = (assembleDoc pyHash id2 now2 p2 v2).hash ∧
    (∀ seen docs, ((SeenDeduper.drop seen docs).map Doc.hash).Nodup ∧
      ∀ d ∈ SeenDeduper.drop seen docs, d.hash ∉ seen) := by
  constructor
  · simp [assembleDoc, h1, h2, ht]
  · intro seen docs
    obtain ⟨hnd, hmem⟩ := dedup_go_spec seen docs []
    exact ⟨hnd, fun d hd => (hmem d hd).1⟩

/-- Witness for C3 amended: the same raw text assembled under different
engine ids and timestamps hashes identically, and a batch with a duplicated
document is collapsed to duplicate-free hashes. -/
theorem C3_amended_witness :
    (assembleDoc pyHashModel "i1" 0 c3Page1 [1]).hash =
      (assembleDoc pyHashModel "i2" 7 c3Page1 [2]).hash ∧
    ((SeenDeduper.drop [] [cexDoc0, cexDoc0]).map Doc.hash).Nodup := by
  obtain ⟨ha, hb⟩ := C3_amended pyHashModel "i1" "i2" 0 7 c3Page1 c3Page1 [1] [2] rfl rfl rfl
  exact ⟨ha, (hb [] [cexDoc0, cexDoc0]).1⟩

/-- C1 counterexample: the claim says `apply` folds with the unweighted
incremental mean, incrementing `doc_count` once per document.  On any topic
the repository constructs, the very first document read of the undeclared
attribute `topic.weight_sum` raises `AttributeError`; and even with the
attribute patched in, two documents of authorities `1` and `1/3` yield the
authority-weighted centroid `[1/4]` with `doc_count` still `0`, not the
unweighted mean `[1/2]` with `doc_count = 2` that the claim predicts. -/
theorem C1_counterexample :
    TopicUpdater.apply 0 cexTopic [c1Doc1] 5 =
      .error "AttributeError: 'Topic' object has no attribute 'weight_sum'" ∧
    (TopicUpdater.apply 0 cexTopicW [c1Doc1, c1Doc2] 5).map
      (fun t => (t.doc_count, t.centroid_long)) = .ok ((0 : ℤ), some [1 / 4]) ∧
    ((1 : ℝ) / 4 ≠ 1 / 2 ∧ (0 : ℤ) ≠ 2) := by
  refine ⟨rfl, ?_, by norm_num, by norm_num⟩
  norm_num [TopicUpdater.apply, TopicUpdater.applyDoc, weighted_incremental_mean_run,
    time_weight, cexTopicW, c1Doc1, c1Doc2, List.foldlM, Except.bind, Except.map,
    Bind.bind, Functor.map, Except.pure, pure,
    Topic.doc_count, Topic.centroid_long, Topic.withBase, Topic.base]

/-- C1 amended: `TopicUpdater.apply(topic, docs, now_ts)` attempts to fold
each document in insertion order into `centroid_long` with the
authority-and-recency weighted incremental mean, keeping the running weight
in the dynamic attribute `topic.weight_sum`; since the `Topic` dataclass
never declares that attribute, the first document raises `AttributeError` on
every topic the repository constructs.  When the attribute does exist (and
authorities are non-negative) the fold succeeds, `last_updated_ts` is set to
`now_ts`, and `doc_count` is never modified. -/
theorem C1_amended (lam now : ℝ) (t : Topic) (docs : List Doc) :
    (t.base.weight_sum = none → docs ≠ [] →
      TopicUpdater.apply lam t docs now =
        .error "AttributeError: 'Topic' object has no attribute 'weight_sum'") ∧
    (∀ W0, t.base.weight_sum = some W0 → (∀ d ∈ docs, 0 ≤ d.authority) →
      TopicUpdater.apply lam t docs now = .ok (t.withBase
        { t.base with
          centroid_long := (weightFold lam now (t.base.centroid_long, W0) docs).1,
          weight_sum := some (weightFold lam now (t.base.centroid_long, W0) docs).2,
          last_updated_ts := now })) ∧
    (∀ t2, TopicUpdater.apply lam t docs now = .ok t2 →
      t2.doc_count = t.doc_count ∧ t2.base.last_updated_ts = now) := by
  refine ⟨?_, ?_, ?_⟩
  · intro hw hne
    cases docs with
    | nil => exact absurd rfl hne
    | cons d rest =>
      unfold TopicUpdater.apply
      rw [List.foldlM_cons]
      have hd : TopicUpdater.applyDoc lam now t.base d =
          .error "AttributeError: 'Topic' object has no attribute 'weight_sum'" := by
        simp [TopicUpdater.applyDoc, hw]
      rw [hd]
      rfl
  · intro W0 hw hpos
    unfold TopicUpdater.apply
    rw [foldlM_applyDoc_ok lam now docs t.base W0 hw hpos]
    rfl
  · intro t2 h
    have hp := apply_ok_fields lam now t t2 docs h
    exact ⟨hp.2.1, hp.2.2.2.1⟩

/-- Witness for C1 amended: with `weight_sum` patched to `0`, a single
authority-1 document bootstraps the centroid to its vector with running
weight 1 and leaves `doc_count` at `0`. -/
theorem C1_amended_witness :
    TopicUpdater.apply 0 cexTopicW [c1Doc1] 5 = .ok (cexTopicW.withBase
      { cexTopicW.base with
        centroid_long := some [0],
        weight_sum := some 1,
        last_updated_ts := 5 }) := by
  have h := (C1_amended 0 5 cexTopicW [c1Doc1]).2.1 0 rfl
    (by
      intro d hd
      rcases List.mem_cons.mp hd with rfl | hd
      · norm_num [c1Doc1]
      · exact absurd hd (List.not_mem_nil d))
  norm_num [weightFold, weighted_incremental_mean, time_weight, c1Doc1] at h
  exact h

/-- Looking up the key just set returns the new value. -/
theorem dictGet_dictSet_self {α β : Type} [DecidableEq α] (d : List (α × β)) (k : α) (v : β) :
    dictGet (dictSet d k v) k = some v := by
  induction d with
  | nil => simp [dictGet, dictSet]
  | cons e rest ih =>
    by_cases h : e.1 = k
    · simp [dictGet, dictSet, h]
    · simp [dictGet, dictSet, h, ih]

/-- Setting one key leaves lookups of other keys unchanged. -/
theorem dictGet_dictSet_ne {α β : Type} [DecidableEq α] (d : List (α × β)) (k k2 : α) (v : β)
    (h : k2 ≠ k) : dictGet (dictSet d k v) k2 = dictGet d k2 := by
  have hkk : ¬ (k = k2) := fun he => h he.symm
  induction d with
  | nil =>
    simp only [dictSet, dictGet, if_neg hkk]
  | cons e rest ih =>
    by_cases he : e.1 = k
    · simp only [dictSet, if_pos he, dictGet, if_neg hkk]
      rw [if_neg (show ¬ (e.1 = k2) by rw [he]; exact hkk)]
    · simp only [dictSet, if_neg he, dictGet]
      by_cases he2 : e.1 = k2
      · rw [if_pos he2, if_pos he2]
      · rw [if_neg he2, if_neg he2]
        exact ih

/-- Appending an entry for a fresh key: lookups of absent keys find it only
when the keys agree. -/
theorem dictGet_append_right {α β : Type} [DecidableEq α] (d : List (α × β)) (k k2 : α)
    (v : β) (hk : dictGet d k2 = none) :
    dictGet (d ++ [(k, v)]) k2 = if k = k2 then some v else none := by
  induction d with
  | nil =>
    simp [dictGet]
  | cons e rest ih =>
    simp only [dictGet] at hk
    by_cases he : e.1 = k2
    · rw [if_pos he] at hk
      cases hk
    · rw [if_neg he] at hk
      simp only [List.cons_append, dictGet, if_neg he]
      exact ih hk

/-- A present key is still found after appending entries on the right. -/
theorem dictGet_append_some {α β : Type} [DecidableEq α] (d rest : List (α × β)) (k2 : α)
    (v : β) (h : dictGet d k2 = some v) : dictGet (d ++ rest) k2 = some v := by
  induction d with
  | nil => cases h
  | cons e d ih =>
    simp only [dictGet] at h
    by_cases he : e.1 = k2
    · rw [if_pos he] at h
      simp only [List.cons_append, dictGet, if_pos he]
      exact h
    · rw [if_neg he] at h
      simp only [List.cons_append, dictGet, if_neg he]
      exact ih h

/-- `setdefault` with the empty default never changes a `getD []` read. -/
theorem dictSetdefault_getD {α : Type} [DecidableEq α] (d : List (α × List String)) (k k2 : α) :
    (dictGet (dictSetdefault d k []) k2).getD [] = (dictGet d k2).getD [] := by
  unfold dictSetdefault
  cases hk : dictGet d k with
  | some v => rfl
  | none =>
    cases hv : dictGet d k2 with
    | none =>
      rw [dictGet_append_right d k k2 [] hv]
      by_cases hkk : k = k2
      · rw [if_pos hkk]
        rfl
      · rw [if_neg hkk]
    | some v =>
      rw [dictGet_append_some d [(k, [])] k2 v hv]

/-- `save_topic` never changes what `seenOf` reads. -/
theorem save_topic_seenOf (S : Storage) (t : Topic) (tid2 : String) :
    (S.save_topic t).seenOf tid2 = S.seenOf tid2 := by
  unfold Storage.save_topic Storage.seenOf
  exact dictSetdefault_getD S.seen_hashes t.id tid2

/-- `save_cluster_state` only touches the cluster-state dict. -/
theorem save_cluster_state_fields (S : Storage) (tid : String) (st : ClusterState) :
    (S.save_cluster_state tid st).topics = S.topics ∧
    (S.save_cluster_state tid st).seen_hashes = S.seen_hashes ∧
    (S.save_cluster_state tid st).docs_by_topic = S.docs_by_topic :=
  ⟨rfl, rfl, rfl⟩

/-- `expire_stale` only touches the cluster-state dict. -/
theorem expire_stale_fields (S : Storage) (tid : String) (mad : ℤ) (now : ℝ) :
    (ClusterMatcher.expire_stale S tid mad now).topics = S.topics ∧
    (ClusterMatcher.expire_stale S tid mad now).seen_hashes = S.seen_hashes ∧
    (ClusterMatcher.expire_stale S tid mad now).docs_by_topic = S.docs_by_topic := by
  unfold ClusterMatcher.expire_stale
  generalize ClusterMatcher.list_states S tid = L
  induction L generalizing S with
  | nil => exact ⟨rfl, rfl, rfl⟩
  | cons s0 L ih =>
    rw [List.foldl_cons]
    by_cases hs : now - s0.last_seen_ts ≥ (mad : ℝ) * 86400
    · rw [if_pos hs]
      exact ih (S.delete_cluster_state tid s0.cluster_id)
    · rw [if_neg hs]
      exact ih S

/-- `match_or_create` only touches the cluster-state dict. -/
theorem match_or_create_fields (tau : ℝ) (S : Storage) (t : Topic) (snap : ClusterSnapshot)
    (hex : String) (now : ℝ) :
    (ClusterMatcher.match_or_create tau S t snap hex now).2.topics = S.topics ∧
    (∀ tid2, (ClusterMatcher.match_or_create tau S t snap hex now).2.seenOf tid2 =
      S.seenOf tid2) := by
  simp only [ClusterMatcher.match_or_create]
  rcases bestLoop_cases snap.centroid_now (ClusterMatcher.list_states S t.id) none (-1)
    with h | ⟨st, hst, ce, hce, heq, hlt⟩
  · rw [h]
    exact ⟨rfl, fun _ => rfl⟩
  · rw [heq]
    by_cases htau : cosSim snap.centroid_now ce ≥ tau
    · constructor
      · simp [htau]
      · intro tid2
        simp [htau]
    · constructor
      · simp only [if_neg htau]
        rfl
      · intro tid2
        simp only [if_neg htau]
        rfl

/-- `ClusterSmoother.update` only touches the cluster-state dict. -/
theorem smoother_update_fields (beta : ℝ) (S : Storage) (t : Topic) (snap : ClusterSnapshot)
    (st : ClusterState) (now : ℝ) :
    (ClusterSmoother.update beta S t snap st now).2.topics = S.topics ∧
    (∀ tid2, (ClusterSmoother.update beta S t snap st now).2.seenOf tid2 = S.seenOf tid2) :=
  ⟨rfl, fun _ => rfl⟩

/-- With an empty search feed the hit-gathering fold returns its
accumulator. -/
theorem hits_empty (P : Ports) (hsearch : ∀ q n, P.search q n = []) (queries : List String) :
    ∀ acc : List Hit, queries.foldl (fun acc q => acc ++ P.search q 10) acc = acc := by
  induction queries with
  | nil => intro acc; rfl
  | cons q qs ih =>
    intro acc
    rw [List.foldl_cons, hsearch q 10, List.append_nil]
    exact ih acc

/-- `TopicUpdater.apply` with no documents only stamps the timestamp. -/
theorem apply_nil (lam now : ℝ) (t : Topic) :
    TopicUpdater.apply lam t [] now =
      .ok (t.withBase { t.base with last_updated_ts := now }) := rfl

/-- `appendChild` keeps the scalar fields. -/
theorem Topic.appendChild_base (t c : Topic) : (t.appendChild c).base = t.base := by
  cases t
  rfl

/-- `appendChild` appends exactly the child. -/
theorem Topic.appendChild_children (t c : Topic) :
    (t.appendChild c).children = t.children ++ [c] := by
  cases t
  rfl

/-- `Topic.id` only depends on the base. -/
theorem Topic.id_eq_base (t : Topic) : t.id = t.base.id := rfl

/-- Invariant of the promotion loop of `Orchestrator.tick`: the topic's
scalar fields never change, the seen-hash reads never change, the children
list grows exactly by the recorded promotions, and every promotion so far is
persisted under its fresh id, carries `emerged_from = topic.id`, and sits in
`topic.children`. -/
theorem promoteLoop_inv (P : Ports) (cfg : OrchConfig) (window : List Doc) (now : ℝ)
    (hinj : ∀ n m, P.fresh n = P.fresh m → n = m)
    (snaps : List ClusterSnapshot) :
    ∀ (S : Storage) (t : Topic) (proms : List Topic) (k : ℕ),
      (∀ c ∈ proms, (∃ j, j < k ∧ c.id = P.fresh j) ∧ dictGet S.topics c.id = some c ∧
        c.emerged_from = some t.id ∧ c ∈ t.children) →
      ((snaps.foldl (promoteStep P cfg window now) (S, t, proms, k)).2.1.base = t.base ∧
       k ≤ (snaps.foldl (promoteStep P cfg window now) (S, t, proms, k)).2.2.2 ∧
       (∀ tid2, (snaps.foldl (promoteStep P cfg window now) (S, t, proms, k)).1.seenOf tid2 =
         S.seenOf tid2) ∧
       (∃ new, (snaps.foldl (promoteStep P cfg window now) (S, t, proms, k)).2.2.1 =
          proms ++ new ∧
          (snaps.foldl (promoteStep P cfg window now) (S, t, proms, k)).2.1.children =
            t.children ++ new) ∧
       (∀ c ∈ (snaps.foldl (promoteStep P cfg window now) (S, t, proms, k)).2.2.1,
         (∃ j, j < (snaps.foldl (promoteStep P cfg window now) (S, t, proms, k)).2.2.2 ∧
           c.id = P.fresh j) ∧
         dictGet (snaps.foldl (promoteStep P cfg window now) (S, t, proms, k)).1.topics c.id =
           some c ∧
         c.emerged_from = some t.id ∧
         c ∈ (snaps.foldl (promoteStep P cfg window now) (S, t, proms, k)).2.1.children)) := by
  induction snaps with
  | nil =>
    intro S t proms k hInv
    refine ⟨rfl, le_refl k, fun tid2 => rfl, ⟨[], by simp, by simp⟩, ?_⟩
    intro c hc
    obtain ⟨⟨j, hj, hid⟩, hget, hem, hch⟩ := hInv c hc
    exact ⟨⟨j, hj, hid⟩, hget, hem, hch⟩
  | cons snap rest ih =>
    intro S t proms k hInv
    rw [List.foldl_cons]
    set mc := ClusterMatcher.match_or_create cfg.tau_match S t snap (P.fresh k) now with hmc
    set su := ClusterSmoother.update cfg.beta mc.2 t snap mc.1 now with hsu
    have hmc_topics : mc.2.topics = S.topics := by
      rw [hmc]
      exact (match_or_create_fields cfg.tau_match S t snap (P.fresh k) now).1
    have hmc_seen : ∀ tid2, mc.2.seenOf tid2 = S.seenOf tid2 := by
      intro tid2
      rw [hmc]
      exact (match_or_create_fields cfg.tau_match S t snap (P.fresh k) now).2 tid2
    have hsu_topics : su.2.topics = S.topics := by
      rw [hsu]
      exact ((smoother_update_fields cfg.beta mc.2 t snap mc.1 now).1).trans hmc_topics
    have hsu_seen : ∀ tid2, su.2.seenOf tid2 = S.seenOf tid2 := by
      intro tid2
      rw [hsu]
      exact ((smoother_update_fields cfg.beta mc.2 t snap mc.1 now).2 tid2).trans
        (hmc_seen tid2)
    by_cases hready : EmergenceDetector.ready t snap su.1
    · have hstep : promoteStep P cfg window now (S, t, proms, k) snap =
          (((su.2.save_topic (EmergenceDetector.promote t snap P.namer
              (window.filter (fun d => d.id ∈ snap.doc_ids)) (P.fresh (k + 1)) now)).delete_cluster_state
              (t.appendChild (EmergenceDetector.promote t snap P.namer
                (window.filter (fun d => d.id ∈ snap.doc_ids)) (P.fresh (k + 1)) now)).id
              su.1.cluster_id),
           t.appendChild (EmergenceDetector.promote t snap P.namer
             (window.filter (fun d => d.id ∈ snap.doc_ids)) (P.fresh (k + 1)) now),
           proms ++ [EmergenceDetector.promote t snap P.namer
             (window.filter (fun d => d.id ∈ snap.doc_ids)) (P.fresh (k + 1)) now],
           k + 2) := by
        simp only [promoteStep]
        rw [← hmc, ← hsu, if_pos hready]
      rw [hstep]
      set child := EmergenceDetector.promote t snap P.namer
        (window.filter (fun d => d.id ∈ snap.doc_ids)) (P.fresh (k + 1)) now with hchild
      set t2 := t.appendChild child with ht2
      set S2 := (su.2.save_topic child).delete_cluster_state t2.id su.1.cluster_id with hS2
      have hchild_id : child.id = P.fresh (k + 1) := rfl
      have hchild_em : child.emerged_from = some t.id := rfl
      have ht2_base : t2.base = t.base := Topic.appendChild_base t child
      have ht2_id : t2.id = t.id := by
        rw [Topic.id_eq_base, Topic.id_eq_base, ht2_base]
      have hS2_topics : S2.topics = dictSet S.topics child.id child := by
        rw [hS2]
        simp only [Storage.delete_cluster_state, Storage.save_topic]
        rw [hsu_topics]
      have hS2_seen : ∀ tid2, S2.seenOf tid2 = S.seenOf tid2 := by
        intro tid2
        rw [hS2]
        have h1 : ((su.2.save_topic child).delete_cluster_state t2.id
            su.1.cluster_id).seenOf tid2 = (su.2.save_topic child).seenOf tid2 := rfl
        rw [h1, save_topic_seenOf]
        exact hsu_seen tid2
      have hInv2 : ∀ c ∈ proms ++ [child], (∃ j, j < k + 2 ∧ c.id = P.fresh j) ∧
          dictGet S2.topics c.id = some c ∧ c.emerged_from = some t2.id ∧
          c ∈ t2.children := by
        intro c hc
        rcases List.mem_append.mp hc with hc | hc
        · obtain ⟨⟨j, hj, hid⟩, hget, hem, hch⟩ := hInv c hc
          refine ⟨⟨j, by omega, hid⟩, ?_, ?_, ?_⟩
          · rw [hS2_topics, dictGet_dictSet_ne]
            · exact hget
            · rw [hid, hchild_id]
              intro he
              have := hinj j (k + 1) he
              omega
          · rw [hem, ht2_id]
          · rw [Topic.appendChild_children]
            exact List.mem_append_left _ hch
        · rcases List.mem_singleton.mp hc with rfl
          refine ⟨⟨k + 1, by omega, hchild_id⟩, ?_, ?_, ?_⟩
          · rw [hS2_topics, dictGet_dictSet_self]
          · rw [hchild_em, ht2_id]
          · rw [Topic.appendChild_children]
            exact List.mem_append_right _ (List.mem_singleton.mpr rfl)
      obtain ⟨ra, rb, rc, ⟨new2, rn1, rn2⟩, rd⟩ := ih S2 t2 (proms ++ [child]) (k + 2) hInv2
      refine ⟨ra.trans ht2_base, by omega, ?_, ?_, ?_⟩
      · intro tid2
        rw [rc tid2, hS2_seen tid2]
      · refine ⟨[child] ++ new2, ?_, ?_⟩
        · rw [rn1, List.append_assoc]
        · rw [rn2, Topic.appendChild_children, List.append_assoc]
      · intro c hc
        obtain ⟨he, hget, hem, hch⟩ := rd c hc
        exact ⟨he, hget, by rw [hem, ht2_id], hch⟩
    · have hstep : promoteStep P cfg window now (S, t, proms, k) snap =
          (su.2, t, proms, k + 2) := by
        simp only [promoteStep]
        rw [← hmc, ← hsu, if_neg hready]
      rw [hstep]
      have hInv2 : ∀ c ∈ proms, (∃ j, j < k + 2 ∧ c.id = P.fresh j) ∧
          dictGet su.2.topics c.id = some c ∧ c.emerged_from = some t.id ∧
          c ∈ t.children := by
        intro c hc
        obtain ⟨⟨j, hj, hid⟩, hget, hem, hch⟩ := hInv c hc
        refine ⟨⟨j, by omega, hid⟩, ?_, hem, hch⟩
        rw [hsu_topics]
        exact hget
      obtain ⟨ra, rb, rc, ⟨new2, rn1, rn2⟩, rd⟩ := ih su.2 t proms (k + 2) hInv2
      refine ⟨ra, by omega, ?_, ⟨new2, rn1, rn2⟩, rd⟩
      intro tid2
      rw [rc tid2, hsu_seen tid2]

/-- `mark_seen_hashes` updates the topic's seen set by set-union. -/
theorem mark_seen_seenOf_self (S : Storage) (tid : String) (hs : List String) :
    (S.mark_seen_hashes tid hs).seenOf tid = setUpdate (S.seenOf tid) hs := by
  unfold Storage.mark_seen_hashes Storage.seenOf
  rw [dictGet_dictSet_self]
  rfl

/-- `save_docs` does not touch the seen sets. -/
theorem save_docs_seenOf (S : Storage) (tid tid2 : String) (docs : List Doc) :
    (S.save_docs tid docs).seenOf tid2 = S.seenOf tid2 := rfl

/-- Characterization of the pure tail of a tick: the final topic persisted
under the topic's id keeps its scalar fields, `ingested` counts the accepted
documents, the topic's seen set grows by exactly the accepted hashes, and
every recorded promotion is a persisted child with the correct back-pointer
and membership in the final children list. -/
theorem tickTail_spec (P : Ports) (cfg : OrchConfig) (S : Storage) (topic : Topic)
    (topK : List Doc) (n0 : ℕ) (now : ℝ)
    (hinj : ∀ n m, P.fresh n = P.fresh m → n = m)
    (hpar : ∀ n, P.fresh n ≠ topic.id) :
    ∃ topicF,
      (tickTail P cfg S topic topK n0 now).1.load_topic topic.id = some topicF ∧
      topicF.base = topic.base ∧
      (tickTail P cfg S topic topK n0 now).2.ingested = topK.length ∧
      (tickTail P cfg S topic topK n0 now).1.seenOf topic.id =
        setUpdate (S.seenOf topic.id) (topK.map (fun d => d.hash)) ∧
      ∀ pr ∈ (tickTail P cfg S topic topK n0 now).2.promotions, ∃ child,
        child.id = pr.1 ∧
        (tickTail P cfg S topic topK n0 now).1.load_topic child.id = some child ∧
        child.emerged_from = some topic.id ∧
        child ∈ topicF.children ∧
        child.id ∈ topicF.children.map Topic.id := by
  simp only [tickTail]
  set S1 := ((S.save_docs topic.id topK).mark_seen_hashes topic.id
    (topK.map (fun d => d.hash))).save_topic topic with hS1
  set window := S1.recent_docs topic.id 500 with hwindow
  set snaps := P.cluster topic window with hsnaps
  set r := snaps.foldl (promoteStep P cfg window now) (S1, topic, [], n0) with hr
  obtain ⟨rbase, rk, rseen, ⟨new, rn1, rn2⟩, rall⟩ :=
    promoteLoop_inv P cfg window now hinj snaps S1 topic [] n0
      (fun c hc => absurd hc (List.not_mem_nil c))
  rw [← hr] at rbase rk rseen rn1 rn2 rall
  have hrid : r.2.1.id = topic.id := by
    rw [Topic.id_eq_base, rbase, ← Topic.id_eq_base]
  have hexp := expire_stale_fields r.1 r.2.1.id cfg.max_age_days now
  refine ⟨r.2.1, ?_, rbase, trivial, ?_, ?_⟩
  · show dictGet (dictSet (ClusterMatcher.expire_stale r.1 r.2.1.id cfg.max_age_days
      now).topics r.2.1.id r.2.1) topic.id = some r.2.1
    rw [hrid]
    exact dictGet_dictSet_self _ topic.id r.2.1
  · show ((ClusterMatcher.expire_stale r.1 r.2.1.id cfg.max_age_days
      now).save_topic r.2.1).seenOf topic.id = _
    rw [save_topic_seenOf]
    have hexp_seen : (ClusterMatcher.expire_stale r.1 r.2.1.id cfg.max_age_days
        now).seenOf topic.id = r.1.seenOf topic.id := by
      unfold Storage.seenOf
      rw [hexp.2.1]
    rw [hexp_seen, rseen topic.id, hS1, save_topic_seenOf, mark_seen_seenOf_self,
      save_docs_seenOf]
  · intro pr hpr
    rcases List.mem_map.mp hpr with ⟨c, hc, hcpr⟩
    obtain ⟨⟨j, hj, hidj⟩, hget, hem, hch⟩ := rall c hc
    refine ⟨c, ?_, ?_, hem, hch, List.mem_map_of_mem Topic.id hch⟩
    · rw [← hcpr]
    · show dictGet (dictSet (ClusterMatcher.expire_stale r.1 r.2.1.id cfg.max_age_days
        now).topics r.2.1.id r.2.1) c.id = some c
      rw [dictGet_dictSet_ne, hexp.1]
      · exact hget
      · rw [hidj, hrid]
        exact hpar j

/-- C2: for every tick in which candidates are promoted, each promoted child
topic is persisted, satisfies `child.emerged_from = topic.id`, is an element
of `topic.children` (the source stores the child Topic objects themselves,
not bare ids), and consequently its id is among the ids of
`topic.children`.  Fresh uuids are assumed injective and distinct from the
parent id, as a cryptographic uuid source guarantees. -/
theorem C2_promoted_children (P : Ports) (cfg : OrchConfig) (S0 : Storage) (tid : String)
    (now : ℝ) (t0 : Topic) (S2 : Storage) (sm : Summary)
    (hload : S0.load_topic tid = some t0)
    (hinj : ∀ n m, P.fresh n = P.fresh m → n = m)
    (hpar : ∀ n, P.fresh n ≠ t0.id)
    (hrun : tick P cfg S0 tid now = .ok (S2, sm)) :
    ∃ topicF, S2.load_topic t0.id = some topicF ∧
      ∀ pr ∈ sm.promotions, ∃ child,
        child.id = pr.1 ∧
        S2.load_topic child.id = some child ∧
        child.emerged_from = some t0.id ∧
        child ∈ topicF.children ∧
        child.id ∈ topicF.children.map Topic.id := by
  unfold tick at hrun
  rw [hload] at hrun
  simp only [bind, Except.bind, pure, Except.pure] at hrun
  cases hup : TopicUpdater.apply cfg.recency_lambda t0 (tickTopK P cfg S0 t0 now) now with
  | error e =>
    rw [hup] at hrun
    exact Except.noConfusion hrun
  | ok t1 =>
    rw [hup] at hrun
    have hpair : tickTail P cfg S0 t1 (tickTopK P cfg S0 t0 now)
        (tickDocs P cfg t0 now).length now = (S2, sm) := by
      have h2 : Except.ok (tickTail P cfg S0 t1 (tickTopK P cfg S0 t0 now)
          (tickDocs P cfg t0 now).length now) = (.ok (S2, sm) : Except String _) := hrun
      exact Except.ok.inj h2
    have hfields := apply_ok_fields cfg.recency_lambda now t0 t1 _ hup
    have hid1 : t1.id = t0.id := hfields.1
    have hpar1 : ∀ n, P.fresh n ≠ t1.id := by
      intro n
      rw [hid1]
      exact hpar n
    obtain ⟨topicF, hloadF, hbaseF, hing, hseen, hproms⟩ :=
      tickTail_spec P cfg S0 t1 (tickTopK P cfg S0 t0 now)
        (tickDocs P cfg t0 now).length now hinj hpar1
    rw [hpair] at hloadF hproms
    rw [hid1] at hloadF
    refine ⟨topicF, hloadF, ?_⟩
    intro pr hpr
    obtain ⟨child, hc1, hc2, hc3, hc4, hc5⟩ := hproms pr hpr
    rw [hid1] at hc3
    exact ⟨child, hc1, hc2, hc3, hc4, hc5⟩

/-- With an empty search feed and the repository's testing adapters, a tick
accepts no documents. -/
theorem tickTopK_empty (P : Ports) (cfg : OrchConfig) (S0 : Storage) (t0 : Topic) (now : ℝ)
    (hsearch : ∀ q n, P.search q n = [])
    (hfilter : P.filterApply = PassFilter.apply)
    (hdedup : P.dedupDrop = SeenDeduper.drop)
    (hrank : P.rankSelect = SimpleRanker.select) :
    tickTopK P cfg S0 t0 now = [] := by
  have hdocs : tickDocs P cfg t0 now = [] := by
    simp only [tickDocs]
    rw [hits_empty P hsearch]
    simp
  unfold tickTopK
  rw [hdocs, hfilter, hdedup, hrank]
  show SimpleRanker.select t0 (SeenDeduper.go (S0.seenOf t0.id) [] []) cfg.K_keep = []
  cases hc : t0.centroid_long <;>
    simp [SimpleRanker.select, SeenDeduper.go, sortDescBy, hc]

/-- C4 amended: running `tick` with an empty external feed (zero hits) under
the repository's testing filter/dedup/rank adapters returns `ingested = 0`,
leaves `doc_count`, `centroid_long` and the seen-hash set unchanged, and
stamps `last_updated_ts = now`; however clustering still runs over the
retained window, so new cluster states can be created and qualifying
candidates can still be promoted into new children (see the counterexample),
and the children list is the only other part of the topic that may change. -/
theorem C4_amended (P : Ports) (cfg : OrchConfig) (S0 : Storage) (tid : String)
    (now : ℝ) (t0 : Topic)
    (hload : S0.load_topic tid = some t0)
    (hsearch : ∀ q n, P.search q n = [])
    (hfilter : P.filterApply = PassFilter.apply)
    (hdedup : P.dedupDrop = SeenDeduper.drop)
    (hrank : P.rankSelect = SimpleRanker.select)
    (hinj : ∀ n m, P.fresh n = P.fresh m → n = m)
    (hpar : ∀ n, P.fresh n ≠ t0.id) :
    ∃ S2 sm, tick P cfg S0 tid now = .ok (S2, sm) ∧
      sm.ingested = 0 ∧
      ∃ topicF, S2.load_topic t0.id = some topicF ∧
        topicF.doc_count = t0.doc_count ∧
        topicF.centroid_long = t0.centroid_long ∧
        topicF.base.last_updated_ts = now ∧
        S2.seenOf t0.id = S0.seenOf t0.id := by
  have htopK := tickTopK_empty P cfg S0 t0 now hsearch hfilter hdedup hrank
  have htick : tick P cfg S0 tid now = .ok (tickTail P cfg S0
      (t0.withBase { t0.base with last_updated_ts := now }) []
      (tickDocs P cfg t0 now).length now) := by
    unfold tick
    rw [hload]
    simp only [bind, Except.bind, pure, Except.pure]
    rw [htopK, apply_nil]
  set t1 := t0.withBase { t0.base with last_updated_ts := now } with ht1
  have ht1_base : t1.base = { t0.base with last_updated_ts := now } :=
    Topic.withBase_base t0 _
  have ht1_id : t1.id = t0.id := by
    rw [Topic.id_eq_base, ht1_base]
    rfl
  have hpar1 : ∀ n, P.fresh n ≠ t1.id := by
    intro n
    rw [ht1_id]
    exact hpar n
  obtain ⟨topicF, hloadF, hbaseF, hing, hseen, _⟩ :=
    tickTail_spec P cfg S0 t1 [] (tickDocs P cfg t0 now).length now hinj hpar1
  refine ⟨(tickTail P cfg S0 t1 [] (tickDocs P cfg t0 now).length now).1,
    (tickTail P cfg S0 t1 [] (tickDocs P cfg t0 now).length now).2, by rw [htick], ?_,
    topicF, ?_, ?_, ?_, ?_, ?_⟩
  · rw [hing]
    rfl
  · rw [← ht1_id]
    exact hloadF
  · show topicF.base.doc_count = t0.base.doc_count
    rw [hbaseF, ht1_base]
  · show topicF.base.centroid_long = t0.base.centroid_long
    rw [hbaseF, ht1_base]
  · rw [hbaseF, ht1_base]
  · rw [← ht1_id]
    rw [hseen]
    show setUpdate (S0.seenOf t1.id) [] = S0.seenOf t1.id
    rfl

set_option maxHeartbeats 2000000 in
/-- First concrete tick: with an empty feed over the seeded one-document
window, the permissive policy (`persistence_min = 1`) promotes the observed
cluster immediately and deletes its ephemeral state. -/
theorem cex_tick1 : tick (cexPorts "f") cexCfg cexStorage "T" 100 = .ok (cexS1, cexSum1) := by
  have hload : cexStorage.load_topic "T" = some cexTopic := by
    simp [Storage.load_topic, cexStorage, dictGet]
  have htopk : tickTopK (cexPorts "f") cexCfg cexStorage cexTopic 100 = [] :=
    tickTopK_empty _ _ _ _ _ (fun q n => rfl) rfl rfl rfl
  have hdocs : tickDocs (cexPorts "f") cexCfg cexTopic 100 = [] := by
    simp [tickDocs, cexPorts, cexTopic, ToyQueryPlanner.plan, Topic.base]
  unfold tick
  rw [hload]
  simp only [bind, Except.bind, pure, Except.pure]
  rw [htopk, apply_nil, hdocs]
  show Except.ok (tickTail (cexPorts "f") cexCfg cexStorage
      (cexTopic.withBase { cexTopic.base with last_updated_ts := 100 }) []
      (List.length ([] : List Doc)) 100) = _
  have hfu : ("f" ++ String.mk ['u'] : String) = "fu" := by decide
  have hTfu : ("T" : String) ≠ "fu" := by decide
  norm_num [hfu, hTfu, tickTail, promoteStep, ClusterMatcher.match_or_create,
    ClusterMatcher.list_states,
    bestLoop, ClusterSmoother.update, EmergenceDetector.ready, EmergenceDetector.promote,
    ClusterMatcher.expire_stale, ema_update_vec, Storage.save_docs, Storage.mark_seen_hashes,
    Storage.save_topic, Storage.seenOf, Storage.recent_docs, Storage.save_cluster_state,
    Storage.delete_cluster_state, dictGet, dictSet, dictSetdefault, dictPop, setUpdate,
    sortDescBy, insertDescBy, Topic.id, Topic.base, Topic.children, Topic.withBase,
    Topic.appendChild, Topic.policy, Topic.doc_count, Topic.name, Topic.centroid_long,
    Topic.emerged_from, cexPorts, cexCfg, cexStorage, cexTopic, cexPolicy, cexDoc0, cexSnap,
    cexChildBase, cexChildF, cexTopicA1, cexS1, cexSum1]

set_option maxHeartbeats 2000000 in
/-- Second concrete tick, again with an empty feed: the window is unchanged,
the clusterer reports the same cluster, a fresh candidate state is created
(the previous one was deleted on promotion), it qualifies immediately, and a
second child is promoted. -/
theorem cex_tick2 : tick (cexPorts "g") cexCfg cexS1 "T" 200 = .ok (cexS2, cexSum2) := by
  have hload : cexS1.load_topic "T" = some cexTopicA1 := by
    simp [Storage.load_topic, cexS1, dictGet]
  have htopk : tickTopK (cexPorts "g") cexCfg cexS1 cexTopicA1 200 = [] :=
    tickTopK_empty _ _ _ _ _ (fun q n => rfl) rfl rfl rfl
  have hdocs : tickDocs (cexPorts "g") cexCfg cexTopicA1 200 = [] := by
    simp [tickDocs, cexPorts, cexTopicA1, ToyQueryPlanner.plan, Topic.base]
  unfold tick
  rw [hload]
  simp only [bind, Except.bind, pure, Except.pure]
  rw [htopk, apply_nil, hdocs]
  show Except.ok (tickTail (cexPorts "g") cexCfg cexS1
      (cexTopicA1.withBase { cexTopicA1.base with last_updated_ts := 200 }) []
      (List.length ([] : List Doc)) 200) = _
  have hgu : ("g" ++ String.mk ['u'] : String) = "gu" := by decide
  have hTgu : ("T" : String) ≠ "gu" := by decide
  have hfugu : ("fu" : String) ≠ "gu" := by decide
  norm_num [hgu, hTgu, hfugu, tickTail, promoteStep, ClusterMatcher.match_or_create,
    ClusterMatcher.list_states,
    bestLoop, ClusterSmoother.update, EmergenceDetector.ready, EmergenceDetector.promote,
    ClusterMatcher.expire_stale, ema_update_vec, Storage.save_docs, Storage.mark_seen_hashes,
    Storage.save_topic, Storage.seenOf, Storage.recent_docs, Storage.save_cluster_state,
    Storage.delete_cluster_state, dictGet, dictSet, dictSetdefault, dictPop, setUpdate,
    sortDescBy, insertDescBy, Topic.id, Topic.base, Topic.children, Topic.withBase,
    Topic.appendChild, Topic.policy, Topic.doc_count, Topic.name, Topic.centroid_long,
    Topic.emerged_from, cexPorts, cexCfg, cexS1, cexTopicA1, cexPolicy, cexDoc0, cexSnap,
    cexChildBase, cexChildF, cexChildG, cexTopicA2, cexS2, cexSum2]

/-- C4 counterexample: the claim says a second `tick` with an empty external
feed returns `ingested = 0`, creates no new children, creates no new cluster
states, and leaves the topic unchanged except `last_updated_ts`.  In the
concrete double run below, the second tick does return `ingested = 0`, yet
it creates a fresh candidate state for the re-observed cluster, promotes it,
and appends a second child: the topic's children list grows from one to two
during the empty-feed second tick. -/
theorem C4_counterexample :
    tick (cexPorts "f") cexCfg cexStorage "T" 100 = .ok (cexS1, cexSum1) ∧
    tick (cexPorts "g") cexCfg cexS1 "T" 200 = .ok (cexS2, cexSum2) ∧
    cexSum2.ingested = 0 ∧
    cexSum2.promotions = [("gu", "Topic: x")] ∧
    cexS1.load_topic "T" = some cexTopicA1 ∧
    cexS2.load_topic "T" = some cexTopicA2 ∧
    cexTopicA1.children.length = 1 ∧
    cexTopicA2.children.length = 2 := by
  refine ⟨cex_tick1, cex_tick2, rfl, rfl, ?_, ?_, rfl, rfl⟩
  · simp [Storage.load_topic, cexS1, dictGet]
  · simp [Storage.load_topic, cexS2, dictGet]

/-- The concrete uuid oracle is injective. -/
theorem cexFresh_inj (tag : String) :
    ∀ n m, (cexPorts tag).fresh n = (cexPorts tag).fresh m → n = m := by
  intro n m h
  simp only [cexPorts] at h
  have hd := congrArg String.data h
  simp only [String.data_append] at hd
  have h2 := List.append_cancel_left hd
  have hl := congrArg List.length h2
  simpa using hl

/-- The concrete uuid oracle with tag `f` never returns the parent id. -/
theorem cexFresh_f_ne (n : ℕ) : (cexPorts "f").fresh n ≠ "T" := by
  intro h
  simp only [cexPorts] at h
  have hd := congrArg String.data h
  simp only [String.data_append] at hd
  simp at hd

/-- The concrete uuid oracle with tag `g` never returns the parent id. -/
theorem cexFresh_g_ne (n : ℕ) : (cexPorts "g").fresh n ≠ "T" := by
  intro h
  simp only [cexPorts] at h
  have hd := congrArg String.data h
  simp only [String.data_append] at hd
  simp at hd

/-- Witness for C2: in the first concrete run the promoted child `cexChildF`
is persisted under its fresh id, points back to the parent, and sits in the
parent's children list (also through the id projection). -/
theorem C2_promoted_children_witness :
    cexS1.load_topic "fu" = some cexChildF ∧
    cexChildF.emerged_from = some "T" ∧
    cexChildF ∈ cexTopicA1.children ∧
    cexChildF.id ∈ cexTopicA1.children.map Topic.id := by
  obtain ⟨topicF, hF, hproms⟩ := C2_promoted_children (cexPorts "f") cexCfg cexStorage "T"
    100 cexTopic cexS1 cexSum1 (by simp [Storage.load_topic, cexStorage, dictGet])
    (cexFresh_inj "f") (fun n => cexFresh_f_ne n) cex_tick1
  have hFA : cexS1.load_topic "T" = some cexTopicA1 := by
    simp [Storage.load_topic, cexS1, dictGet]
  have htf : topicF = cexTopicA1 := Option.some.inj ((hF.symm.trans hFA))
  have hpr : (("fu", "Topic: x") : String × String) ∈ cexSum1.promotions := by
    simp [cexSum1]
  obtain ⟨child, hc1, hc2, hc3, hc4, hc5⟩ := hproms ("fu", "Topic: x") hpr
  have hcF : cexS1.load_topic "fu" = some cexChildF := by
    simp [Storage.load_topic, cexS1, dictGet]
  rw [hc1] at hc2
  have hchild : child = cexChildF := Option.some.inj (hc2.symm.trans hcF)
  subst hchild
  subst htf
  exact ⟨hcF, hc3, hc4, hc5⟩

/-- Witness for C4 amended: the empty-feed tick on the concrete store
succeeds and reports zero ingested documents. -/
theorem C4_amended_witness :
    cexStorage.load_topic "T" = some cexTopic ∧
    (tick (cexPorts "g") cexCfg cexStorage "T" 100).toOption.map
      (fun r => r.2.ingested) = some 0 := by
  obtain ⟨S2, sm, hrun, hing, _⟩ := C4_amended (cexPorts "g") cexCfg cexStorage "T" 100
    cexTopic (by simp [Storage.load_topic, cexStorage, dictGet]) (fun q n => rfl) rfl rfl rfl
    (cexFresh_inj "g") (fun n => cexFresh_g_ne n)
  refine ⟨by simp [Storage.load_topic, cexStorage, dictGet], ?_⟩
  rw [hrun]
  simp [Except.toOption, hing]

/-- Witness for C6 amended: with the default threshold `0.4`, the unique
state `c6wState` (centroid `[1]`, similarity exactly `1 > -1`) is matched and
returned with storage untouched. -/
theorem C6_amended_witness :
    ClusterMatcher.match_or_create (4 / 10) c6wStorage cexTopic c6Snap "0123456789abcdef" 7 =
      (c6wState, c6wStorage) := by
  have hstates : ClusterMatcher.list_states c6wStorage cexTopic.id = [] ++ c6wState :: [] := by
    simp [ClusterMatcher.list_states, c6wStorage, cexTopic, Topic.id, Topic.base]
  have h := (C6_amended (4 / 10) c6wStorage cexTopic c6Snap "0123456789abcdef" 7).1
    [] c6wState [] [1] hstates rfl
    (by rw [show c6Snap.centroid_now = ([1] : Vec) from rfl, cosSim_one_one]; norm_num)
    (by rw [show c6Snap.centroid_now = ([1] : Vec) from rfl, cosSim_one_one]; norm_num)
    (by intro st1 hst1 ce1 _; exact absurd hst1 (List.not_mem_nil st1))
    (by intro st2 hst2 ce2 _; exact absurd hst2 (List.not_mem_nil st2))
  exact h

/-- C7 counterexample: the claim asserts the promoted child shares no mutable
state with the parent; at the concrete parent allocation `c7Refs` the child
produced by `promote` holds the parent's own `negative_rules` object (and
likewise its `policy` object), because the constructor call passes
`negative=parent.negative, policy=parent.policy`. -/
theorem C7_counterexample : sharesMutableState (promoteRefs c7Refs 4 5) c7Refs :=
  Or.inl rfl

/-- C7 amended: `promote` returns a child with a freshly generated id, name
and seeds from the namer applied to `cluster_docs`, `negative_rules` and
`policy` inherited from the parent, `centroid_long` a copy of
`snapshot.centroid_now`, `doc_count = snapshot.size`,
`centroid_short_ema = null`, `emerged_from = parent.id`, and a fresh empty
`children` list; the child's centroid and children lists are fresh objects,
but the inherited `negative_rules` and `policy` are the parent's own mutable
objects, so that much mutable state is shared. -/
theorem C7_promote_amended (parent : Topic) (snap : ClusterSnapshot)
    (namer : List Doc → String × List String) (cluster_docs : List Doc)
    (freshId : String) (now : ℝ) (pr : TopicRefs) (fc fk : ℕ)
    (hfc : some fc ≠ pr.centroidRef) (hfk : fk ≠ pr.childrenRef) :
    (EmergenceDetector.promote parent snap namer cluster_docs freshId now).id = freshId ∧
    (EmergenceDetector.promote parent snap namer cluster_docs freshId now).name =
      (namer cluster_docs).1 ∧
    (EmergenceDetector.promote parent snap namer cluster_docs freshId now).base.seeds =
      (namer cluster_docs).2 ∧
    (EmergenceDetector.promote parent snap namer cluster_docs freshId now).base.negative =
      parent.base.negative ∧
    (EmergenceDetector.promote parent snap namer cluster_docs freshId now).base.policy =
      parent.base.policy ∧
    (EmergenceDetector.promote parent snap namer cluster_docs freshId now).centroid_long =
      some snap.centroid_now ∧
    (EmergenceDetector.promote parent snap namer cluster_docs freshId now).doc_count =
      snap.size ∧
    (EmergenceDetector.promote parent snap namer cluster_docs freshId now).base.centroid_short_ema = none ∧
    (EmergenceDetector.promote parent snap namer cluster_docs freshId now).emerged_from =
      some parent.id ∧
    (EmergenceDetector.promote parent snap namer cluster_docs freshId now).base.last_updated_ts = now ∧
    (EmergenceDetector.promote parent snap namer cluster_docs freshId now).children = [] ∧
    (promoteRefs pr fc fk).negativeRef = pr.negativeRef ∧
    (promoteRefs pr fc fk).policyRef = pr.policyRef ∧
    (promoteRefs pr fc fk).centroidRef ≠ pr.centroidRef ∧
    (promoteRefs pr fc fk).childrenRef ≠ pr.childrenRef := by
  refine ⟨rfl, rfl, rfl, rfl, rfl, rfl, rfl, rfl, rfl, rfl, rfl, rfl, rfl, ?_, ?_⟩
  · exact hfc
  · exact hfk

/-- Witness for C7 amended: the concrete promotion of `cexSnap` under
`cexTopic` with fresh id `f1` yields exactly the child `cexChildF`, and the
concrete allocation `(c7Refs, 4, 5)` has fresh centroid and children ids. -/
theorem C7_promote_amended_witness :
    (EmergenceDetector.promote cexTopic cexSnap (fun _ => ("Topic: x", ["x"])) [cexDoc0]
      "f1" 100).emerged_from = some cexTopic.id ∧
    (EmergenceDetector.promote cexTopic cexSnap (fun _ => ("Topic: x", ["x"])) [cexDoc0]
      "f1" 100).doc_count = cexSnap.size ∧
    (promoteRefs c7Refs 4 5).centroidRef ≠ c7Refs.centroidRef ∧
    (promoteRefs c7Refs 4 5).childrenRef ≠ c7Refs.childrenRef := by
  have h := C7_promote_amended cexTopic cexSnap (fun _ => ("Topic: x", ["x"])) [cexDoc0]
    "f1" 100 c7Refs 4 5 (by decide) (by decide)
  exact ⟨h.2.2.2.2.2.2.2.2.1, h.2.2.2.2.2.2.1, h.2.2.2.2.2.2.2.2.2.2.2.2.2.1,
    h.2.2.2.2.2.2.2.2.2.2.2.2.2.2⟩

end





